import Mathlib

/-!
Verification of the kops ClassicLoadBalancer task and the terraform HCL writer.

This file shallowly embeds the Go sources:
  * `upup/pkg/fi/cloudup/terraform` writer (`writeValue`, `oldWriteMap`,
    `writeLiteral`, `writeLiteralList`, `literalListTokens`),
  * `upup/pkg/fi/cloudup/awstasks/classic_load_balancer.go`
    (`Find`, `Normalize`, `ShouldCreate`, `CheckChanges`, `RenderAWS`,
    `RenderTerraform`, `findLoadBalancerByLoadBalancerName`,
    `findLoadBalancerByAlias`, `describeLoadBalancers`).

Go maps are embedded as association lists (the list order plays the role of
insertion order), Go `*T` pointers on task fields as `Option T`, Go slices as
`List`, and cloud/API collaborators as explicit environments supplying the
responses the code would receive.  Sorting in the Go code (`sort.Strings`,
`sort.Stable`, stable sorts in the libraries) is embedded with Mathlib's
`List.insertionSort`, which is stable, over a byte-level lexicographic string
order (Go compares strings bytewise; UTF-8 byte order equals code-point order,
so comparing `String.data` code points is faithful).
-/

/-! ### Byte-level string order (Go string comparison) -/

/-- Lexicographic comparison of character lists, mirroring Go's bytewise
string comparison (`a <= b`). -/
def lexLE : List Char → List Char → Bool
  | [], _ => true
  | _ :: _, [] => false
  | a :: as, b :: bs => if a < b then true else if b < a then false else lexLE as bs

/-- Go's `a <= b` on strings. -/
def strLeB (a b : String) : Bool := lexLE a.data b.data

theorem lexLE_total : ∀ as bs : List Char, lexLE as bs = true ∨ lexLE bs as = true
  | [], _ => Or.inl rfl
  | _ :: _, [] => Or.inr rfl
  | a :: as, b :: bs => by
    rcases lt_trichotomy a b with h | h | h
    · left; simp [lexLE, h]
    · subst h
      rcases lexLE_total as bs with h2 | h2 <;> simp [lexLE, h2, lt_irrefl]
    · right; simp [lexLE, h]

theorem lexLE_antisymm : ∀ as bs : List Char,
    lexLE as bs = true → lexLE bs as = true → as = bs
  | [], [], _, _ => rfl
  | [], _ :: _, _, h => by simp [lexLE] at h
  | _ :: _, [], h, _ => by simp [lexLE] at h
  | a :: as, b :: bs, h1, h2 => by
    rcases lt_trichotomy a b with h | h | h
    · simp [lexLE, h, asymm h] at h2
    · subst h
      simp only [lexLE, lt_irrefl, if_false] at h1 h2
      rw [lexLE_antisymm as bs h1 h2]
    · simp [lexLE, h, asymm h] at h1

theorem lexLE_trans : ∀ as bs cs : List Char,
    lexLE as bs = true → lexLE bs cs = true → lexLE as cs = true
  | [], _, _, _, _ => rfl
  | _ :: _, [], _, h, _ => by simp [lexLE] at h
  | _ :: _, _ :: _, [], _, h => by simp [lexLE] at h
  | a :: as, b :: bs, c :: cs, h1, h2 => by
    rcases lt_trichotomy a b with hab | hab | hab <;>
      rcases lt_trichotomy b c with hbc | hbc | hbc
    · simp [lexLE, lt_trans hab hbc]
    · subst hbc; simp [lexLE, hab]
    · simp [lexLE, hbc, asymm hbc] at h2
    · subst hab; simp [lexLE, hbc]
    · subst hab; subst hbc
      simp only [lexLE, lt_irrefl, if_false] at h1 h2 ⊢
      exact lexLE_trans as bs cs h1 h2
    · simp [lexLE, hbc, asymm hbc] at h2
    · simp [lexLE, hab, asymm hab] at h1
    · simp [lexLE, hab, asymm hab] at h1
    · simp [lexLE, hab, asymm hab] at h1

theorem strLeB_antisymm {a b : String} (h1 : strLeB a b = true)
    (h2 : strLeB b a = true) : a = b := by
  have h := lexLE_antisymm _ _ h1 h2
  cases a; cases b
  exact congrArg String.mk h

/-- The string ordering used for all embedded sorts. -/
def strRel : String → String → Prop := fun a b => strLeB a b = true

instance : DecidableRel strRel := fun _ _ => inferInstanceAs (Decidable (_ = true))

instance : IsTotal String strRel := ⟨fun a b => lexLE_total a.data b.data⟩

instance : IsTrans String strRel :=
  ⟨fun a b c h1 h2 => lexLE_trans a.data b.data c.data h1 h2⟩

instance : IsAntisymm String strRel := ⟨fun _ _ h1 h2 => strLeB_antisymm h1 h2⟩

/-- Go's `sort.Strings`. -/
def sortStrings (l : List String) : List String := l.insertionSort strRel

theorem sortStrings_perm (l : List String) : (sortStrings l).Perm l :=
  List.perm_insertionSort _ _

theorem sortStrings_sorted (l : List String) : (sortStrings l).Sorted strRel :=
  List.sorted_insertionSort _ _

theorem sortStrings_eq_of_perm {l₁ l₂ : List String} (h : l₁.Perm l₂) :
    sortStrings l₁ = sortStrings l₂ :=
  List.eq_of_perm_of_sorted
    (((sortStrings_perm l₁).trans h).trans (sortStrings_perm l₂).symm)
    (sortStrings_sorted l₁) (sortStrings_sorted l₂)

/-- Key-only ordering on association-list entries (used by the stable sorts
over `(key, value)` pairs). -/
def keyRel {β : Type} : (String × β) → (String × β) → Prop :=
  fun p q => strLeB p.1 q.1 = true

instance {β : Type} : DecidableRel (@keyRel β) :=
  fun _ _ => inferInstanceAs (Decidable (_ = true))

instance {β : Type} : IsTotal (String × β) keyRel :=
  ⟨fun a b => lexLE_total a.1.data b.1.data⟩

instance {β : Type} : IsTrans (String × β) keyRel :=
  ⟨fun a b c h1 h2 => lexLE_trans a.1.data b.1.data c.1.data h1 h2⟩

/-- Stable sort of an association list by key. -/
def sortByKey {β : Type} (l : List (String × β)) : List (String × β) :=
  l.insertionSort keyRel

theorem sortByKey_perm {β : Type} (l : List (String × β)) : (sortByKey l).Perm l :=
  List.perm_insertionSort _ _

theorem sortByKey_sorted {β : Type} (l : List (String × β)) :
    (sortByKey l).Sorted keyRel :=
  List.sorted_insertionSort _ _

/-- Executable string-list membership. -/
def memB (s : String) : List String → Bool
  | [] => false
  | t :: ts => (s == t) || memB s ts

theorem memB_iff {s : String} : ∀ l : List String, memB s l = true ↔ s ∈ l
  | [] => by simp [memB]
  | t :: ts => by simp [memB, memB_iff ts]

/-- Executable key-distinctness check (Go map keys are distinct). -/
def nodupB : List String → Bool
  | [] => true
  | s :: rest => !memB s rest && nodupB rest

theorem nodup_of_nodupB : ∀ {l : List String}, nodupB l = true → l.Nodup
  | [], _ => List.nodup_nil
  | s :: rest, h => by
    simp only [nodupB, Bool.and_eq_true, Bool.not_eq_true'] at h
    refine List.nodup_cons.2 ⟨fun hmem => ?_, nodup_of_nodupB h.2⟩
    rw [(memB_iff rest).2 hmem] at h
    exact Bool.false_ne_true h.1.symm

/-- Two permuted association lists with distinct keys have the same stable
key-sort. -/
theorem sortByKey_eq_of_perm_nodup {β : Type} :
    ∀ {l₁ l₂ : List (String × β)}, l₁.Perm l₂ → (l₁.map Prod.fst).Nodup →
      sortByKey l₁ = sortByKey l₂ := by
  have main : ∀ (n : ℕ) (m₁ m₂ : List (String × β)), m₁.length ≤ n → m₁.Perm m₂ →
      m₁.Sorted keyRel → m₂.Sorted keyRel → (m₁.map Prod.fst).Nodup → m₁ = m₂ := by
    intro n
    induction n with
    | zero =>
      intro m₁ m₂ hlen hp _ _ _
      have : m₁ = [] := List.length_eq_zero.1 (Nat.le_zero.1 hlen)
      subst this
      exact hp.nil_eq
    | succ n ih =>
      intro m₁ m₂ hlen hp hs₁ hs₂ hnd
      match m₁, m₂ with
      | [], m₂ => exact hp.nil_eq
      | a :: t₁, [] => exact absurd hp.symm.nil_eq (by simp)
      | a :: t₁, b :: t₂ =>
        have hab : a = b := by
          have ha2 : a ∈ b :: t₂ := hp.subset (List.mem_cons_self _ _)
          have hb1 : b ∈ a :: t₁ := hp.symm.subset (List.mem_cons_self _ _)
          rcases List.mem_cons.1 ha2 with h | h
          · exact h
          rcases List.mem_cons.1 hb1 with h' | h'
          · exact h'.symm
          have h1 : keyRel a b := List.rel_of_sorted_cons hs₁ _ h'
          have h2 : keyRel b a := List.rel_of_sorted_cons hs₂ _ h
          have hk : a.1 = b.1 := strLeB_antisymm h1 h2
          exfalso
          have : a.1 ∈ t₁.map Prod.fst := by
            rw [hk]
            exact List.mem_map_of_mem Prod.fst h'
          exact (List.nodup_cons.1 hnd).1 this
        subst hab
        have hpt : t₁.Perm t₂ := (List.perm_cons a).1 hp
        have hlen' : t₁.length ≤ n := by
          simp only [List.length_cons] at hlen
          omega
        have := ih t₁ t₂ hlen' hpt hs₁.of_cons hs₂.of_cons
          (List.nodup_cons.1 (by simpa using hnd)).2
        rw [this]
  intro l₁ l₂ hp hnd
  refine main (sortByKey l₁).length (sortByKey l₁) (sortByKey l₂) le_rfl
    (((sortByKey_perm l₁).trans hp).trans (sortByKey_perm l₂).symm)
    (sortByKey_sorted l₁) (sortByKey_sorted l₂) ?_
  have : ((sortByKey l₁).map Prod.fst).Perm (l₁.map Prod.fst) :=
    (sortByKey_perm l₁).map Prod.fst
  exact this.nodup_iff.2 hnd

/-! ### The terraform writer (`upup/pkg/fi/cloudup/terraform`)

`cty.Value` trees are embedded as `Value`.  Objects and maps carry their
entries as association lists whose order models Go's (unobservable) map
insertion/iteration order; `terraformWriter.Literal` values (the "deferred
values") are the `lit` constructor, matching the reflective
`gocty.FromCtyValue(..., *terraformWriter.Literal)` coercion the writer uses
to detect them. -/

inductive Value where
  | null
  | str (s : String)
  | bool (b : Bool)
  | num (n : Int)
  | lit (s : String)
  | list (elems : List Value)
  | object (attrs : List (String × Value))
  | map (entries : List (String × Value))

/-- One item appended to an `hclwrite.Body`: a raw attribute (its token bytes,
each token rendered with its `SpacesBefore` spaces) or a nested block. -/
inductive BodyItem where
  | attr (key : String) (tokens : List String)
  | block (key : String) (body : List BodyItem)

/-- The reflective coercion of a value to `*terraformWriter.Literal`:
succeeds exactly on Literal-shaped values. -/
def asLiteral : Value → Option String
  | .lit s => some s
  | _ => none

/-- All-or-nothing coercion of list elements to Literals. -/
def litListOf : List Value → Option (List String)
  | [] => some []
  | v :: vs =>
    match asLiteral v with
    | none => none
    | some s => (litListOf vs).map (fun ls => s :: ls)

/-- The reflective coercion of a value to `*[]*terraformWriter.Literal`:
succeeds exactly on lists all of whose elements are Literal-shaped. -/
def asLiteralList : Value → Option (List String)
  | .list vs => litListOf vs
  | _ => none

/-- `cty.Value.AsString`.  On non-string values cty panics; that case is
unreachable for the homogeneous cty maps the writer receives, and is embedded
as the empty string. -/
def asString : Value → String
  | .str s => s
  | _ => ""

def isObjectV : Value → Bool
  | .object _ => true
  | _ => false

/-- `AttributeTypes`/`GetAttr` source of an object value (empty for
non-objects, where cty would panic; unreachable in the writer). -/
def attrsOf : Value → List (String × Value)
  | .object es => es
  | _ => []

/-- Association-list lookup, i.e. Go map indexing / cty `GetAttr`. -/
def getAttrOpt (es : List (String × Value)) (k : String) : Option Value :=
  (es.find? (fun p => p.1 == k)).map Prod.snd

def getAttr (es : List (String × Value)) (k : String) : Value :=
  (getAttrOpt es k).getD .null

/-- `literalListTokens`: `key = [lit1, lit2, ...]`.  Token bytes with their
`SpacesBefore` spaces: the opening bracket has `SpacesBefore: 1`. -/
def literalListTokens (ls : List String) : List String :=
  " [" :: (ls.intersperse ",") ++ ["]"]

/-- `oldWriteMap`'s per-value token rendering: a Literal renders as a bare
identifier token, a list of Literals via `literalListTokens`, anything else as
a quoted string (note the source emits the closing quote as another `OQuote`
token with `SpacesBefore: 1`, hence the ` "` byte rendering on both sides). -/
def mapValueTokens (v : Value) : List String :=
  match asLiteral v with
  | some s => [s]
  | none =>
    match asLiteralList v with
    | some ls => literalListTokens ls
    | none => [" \"", asString v, " \""]

/-- The per-key token run of `oldWriteMap`'s loop body, iterated over the
sorted key list: `OQuote(sp1) QuotedLit CQuote(sp1) Equal(sp1)` then the value
tokens then a newline. -/
def oldWriteMapBody (values : List (String × Value)) : List String → List String
  | [] => []
  | k :: ks =>
      [" \"", k, " \"", " ="] ++ mapValueTokens (getAttr values k) ++ ["\n"]
        ++ oldWriteMapBody values ks

/-- `oldWriteMap` (part_000 lines 149–198): empty maps emit nothing; otherwise
one raw attribute whose tokens are `{`, newline, the key-sorted entries, `}`. -/
def oldWriteMap (key : String) (values : List (String × Value)) : List BodyItem :=
  if values.isEmpty then []
  else
    [ .attr key ((" \x7b" :: "\n" ::
        oldWriteMapBody values (sortStrings (values.map Prod.fst))) ++ ["\x7d"]) ]

def commaJoin : List (List String) → List String
  | [] => []
  | [x] => x
  | x :: xs => x ++ "," :: commaJoin xs

/-- Flatten rendered `(key, value-tokens)` pairs in key-sorted order. -/
def flattenSortedTok (rs : List (String × List String)) : List String :=
  ((sortByKey rs).map (fun r => "\"" :: r.1 :: "\"" :: "=" :: r.2)).flatten

mutual

/-- Model of `hclwrite.Body.SetAttributeValue`, i.e. of
`hclwrite.TokensForValue` (external library, not part of this repository):
a deterministic token rendering in which cty's object-attribute and map-key
iteration is in sorted key order, as the cty library guarantees.  A
Literal-shaped value is a cty object with a single `value` attribute. -/
def tokensForValue : Value → List String
  | .null => ["null"]
  | .str s => ["\"", s, "\""]
  | .bool b => [cond b "true" "false"]
  | .num n => [toString n]
  | .lit s => ["\x7b", "\"", "value", "\"", "=", "\"", s, "\"", "\x7d"]
  | .list vs => "[" :: commaJoin (tokensForValueList vs) ++ ["]"]
  | .object es => "\x7b" :: flattenSortedTok (tokensForValueEntries es) ++ ["\x7d"]
  | .map es => "\x7b" :: flattenSortedTok (tokensForValueEntries es) ++ ["\x7d"]

def tokensForValueList : List Value → List (List String)
  | [] => []
  | v :: vs => tokensForValue v :: tokensForValueList vs

def tokensForValueEntries : List (String × Value) → List (String × List String)
  | [] => []
  | p :: es => (p.1, tokensForValue p.2) :: tokensForValueEntries es

end

theorem value_sizeOf_pos (v : Value) : 1 ≤ sizeOf v := by
  cases v <;> simp <;> omega

theorem sizeOf_getAttr_le (es : List (String × Value)) (k : String) :
    sizeOf (getAttr es k) ≤ sizeOf es := by
  unfold getAttr getAttrOpt
  cases h : es.find? (fun p => p.1 == k) with
  | none =>
    cases es with
    | nil => simp
    | cons p ps =>
      have := value_sizeOf_pos p.2
      simp <;> omega
  | some p =>
    have hm := List.mem_of_find?_eq_some h
    have h1 := List.sizeOf_lt_of_mem hm
    have h2 : sizeOf p.2 < sizeOf p := by
      cases p with
      | mk a b => simp <;> omega
    simp only [Option.map_some', Option.getD_some]
    omega

theorem sizeOf_attrsOf_le (v : Value) : sizeOf (attrsOf v) ≤ sizeOf v := by
  cases v <;> simp [attrsOf] <;> omega

mutual

/-- `writeValue` (part_000 lines 34–98) together with the bodies it builds.
`writeObjList` is the loop emitting one block per element of a list of
objects (lines 58–71), `writeAttrs`/`writeKeys` the sorted-attribute emission
shared by that loop and the single-object branch (lines 63–70 and 84–91). -/
def writeValue (key : String) (value : Value) : List BodyItem :=
  match value with
  | .null => []
  | .list vs =>
      if vs.isEmpty then []
      else if (vs.filterMap asLiteral).isEmpty = false then
        [ .attr key (literalListTokens (vs.filterMap asLiteral)) ]
      else if isObjectV (vs.headD .null) then writeObjList key vs
      else [ .attr key (tokensForValue (.list vs)) ]
  | .lit s => [ .attr key [s] ]
  | .object es => [ .block key (writeAttrs es) ]
  | .map es => oldWriteMap key es
  | v => [ .attr key (tokensForValue v) ]
termination_by (sizeOf value, 1, 0)
decreasing_by
  · simp [Prod.lex_def] <;> omega
  · simp [Prod.lex_def] <;> omega

/-- The loop over a list of object elements in `writeValue`. -/
def writeObjList (key : String) (vs : List Value) : List BodyItem :=
  match vs with
  | [] => []
  | v :: rest => .block key (writeAttrs (attrsOf v)) :: writeObjList key rest
termination_by (sizeOf vs, 4, 0)
decreasing_by
  · have h1 := sizeOf_attrsOf_le v
    simp [Prod.lex_def] <;> omega
  · simp [Prod.lex_def] <;> omega

/-- Sorted-attribute emission of an object body. -/
def writeAttrs (es : List (String × Value)) : List BodyItem :=
  writeKeys es (sortStrings (es.map Prod.fst))
termination_by (sizeOf es, 3, 0)
decreasing_by
  simp [Prod.lex_def] <;> omega

/-- The loop over the sorted attribute keys of an object body. -/
def writeKeys (es : List (String × Value)) (ks : List String) : List BodyItem :=
  match ks with
  | [] => []
  | k :: rest => writeValue k (getAttr es k) ++ writeKeys es rest
termination_by (sizeOf es, 2, sizeOf ks)
decreasing_by
  · have h1 := sizeOf_getAttr_le es t
    simp [Prod.lex_def] <;> omega
  · simp [Prod.lex_def] <;> omega

end

mutual

/-- The canonical form of a value tree: object and map entries stably sorted
by key, recursively.  Two trees denote the same logical value (same finite
maps at every level, i.e. "keys inserted in a different order") exactly when
they share a canonical form. -/
def canon : Value → Value
  | .null => .null
  | .str s => .str s
  | .bool b => .bool b
  | .num n => .num n
  | .lit s => .lit s
  | .list vs => .list (canonList vs)
  | .object es => .object (sortByKey (canonEntries es))
  | .map es => .map (sortByKey (canonEntries es))

def canonList : List Value → List Value
  | [] => []
  | v :: vs => canon v :: canonList vs

def canonEntries : List (String × Value) → List (String × Value)
  | [] => []
  | p :: es => (p.1, canon p.2) :: canonEntries es

end

mutual

/-- Well-formedness: at every object/map node the keys are distinct (as the
keys of a Go map always are). -/
def wfB : Value → Bool
  | .null => true
  | .str _ => true
  | .bool _ => true
  | .num _ => true
  | .lit _ => true
  | .list vs => wfListB vs
  | .object es => nodupB (es.map Prod.fst) && wfEntriesB es
  | .map es => nodupB (es.map Prod.fst) && wfEntriesB es

def wfListB : List Value → Bool
  | [] => true
  | v :: vs => wfB v && wfListB vs

def wfEntriesB : List (String × Value) → Bool
  | [] => true
  | p :: es => wfB p.2 && wfEntriesB es

end

/-! ### Writer lemmas: canonicalisation does not change the emitted bytes -/

theorem canonList_eq_map : ∀ vs : List Value, canonList vs = vs.map canon
  | [] => by simp [canonList]
  | v :: vs => by simp [canonList, canonList_eq_map vs]

theorem canonEntries_eq_map : ∀ es : List (String × Value),
    canonEntries es = es.map (fun p => (p.1, canon p.2))
  | [] => by simp [canonEntries]
  | p :: es => by simp [canonEntries, canonEntries_eq_map es]

theorem tokensForValueList_eq : ∀ vs : List Value,
    tokensForValueList vs = vs.map tokensForValue
  | [] => by simp [tokensForValueList]
  | v :: vs => by simp [tokensForValueList, tokensForValueList_eq vs]

theorem tokensForValueEntries_eq : ∀ es : List (String × Value),
    tokensForValueEntries es = es.map (fun p => (p.1, tokensForValue p.2))
  | [] => by simp [tokensForValueEntries]
  | p :: es => by simp [tokensForValueEntries, tokensForValueEntries_eq es]

theorem wfListB_iff {vs : List Value} :
    wfListB vs = true ↔ ∀ v ∈ vs, wfB v = true := by
  induction vs with
  | nil => simp [wfListB]
  | cons v vs ih => simp [wfListB, ih]

theorem wfEntriesB_iff {es : List (String × Value)} :
    wfEntriesB es = true ↔ ∀ p ∈ es, wfB p.2 = true := by
  induction es with
  | nil => simp [wfEntriesB]
  | cons p es ih => simp [wfEntriesB, ih]

theorem canon_null : canon .null = .null := by simp [canon]

theorem asLiteral_canon (v : Value) : asLiteral (canon v) = asLiteral v := by
  cases v <;> simp [canon, asLiteral]

theorem isObjectV_canon (v : Value) : isObjectV (canon v) = isObjectV v := by
  cases v <;> simp [canon, isObjectV]

theorem asString_canon (v : Value) : asString (canon v) = asString v := by
  cases v <;> simp [canon, asString]

theorem litListOf_map_canon : ∀ vs : List Value,
    litListOf (vs.map canon) = litListOf vs
  | [] => by simp [litListOf]
  | v :: vs => by
    simp only [List.map_cons, litListOf, asLiteral_canon, litListOf_map_canon vs]

theorem asLiteralList_canon (v : Value) :
    asLiteralList (canon v) = asLiteralList v := by
  cases v with
  | list vs => simp [canon, asLiteralList, canonList_eq_map, litListOf_map_canon]
  | _ => simp [canon, asLiteralList]

theorem mapValueTokens_canon (v : Value) :
    mapValueTokens (canon v) = mapValueTokens v := by
  unfold mapValueTokens
  rw [asLiteral_canon, asLiteralList_canon, asString_canon]

theorem canonEntries_keys (es : List (String × Value)) :
    (canonEntries es).map Prod.fst = es.map Prod.fst := by
  rw [canonEntries_eq_map, List.map_map]
  rfl

theorem getAttrOpt_mapSnd (f : Value → Value) (es : List (String × Value))
    (k : String) :
    getAttrOpt (es.map (fun p => (p.1, f p.2))) k = (getAttrOpt es k).map f := by
  unfold getAttrOpt
  rw [List.find?_map]
  have : ((fun p : String × Value => p.1 == k) ∘ fun p : String × Value => (p.1, f p.2))
      = fun p : String × Value => p.1 == k := rfl
  rw [this]
  cases es.find? (fun p => p.1 == k) <;> simp

theorem getAttrOpt_eq_some_iff {es : List (String × Value)} {k : String} {v : Value}
    (hnd : (es.map Prod.fst).Nodup) :
    getAttrOpt es k = some v ↔ (k, v) ∈ es := by
  constructor
  · intro h
    unfold getAttrOpt at h
    cases hf : es.find? (fun p => p.1 == k) with
    | none => rw [hf] at h; simp at h
    | some p =>
      rw [hf] at h
      simp only [Option.map_some', Option.some.injEq] at h
      have hmem := List.mem_of_find?_eq_some hf
      have hpred := List.find?_some hf
      simp only [beq_iff_eq] at hpred
      have : p = (k, v) := by
        cases p
        simp only at hpred h
        simp [hpred, h]
      rw [this] at hmem
      exact hmem
  · intro h
    induction es with
    | nil => simp at h
    | cons q es ih =>
      simp only [List.map_cons] at hnd
      rcases List.mem_cons.1 h with h' | h'
      · subst h'
        unfold getAttrOpt
        rw [List.find?_cons_of_pos _ (by simp)]
        rfl
      · have hk : (q.1 == k) = false := by
          refine beq_eq_false_iff_ne.2 (fun he => ?_)
          have hmem2 : k ∈ es.map Prod.fst := by
            have := List.mem_map_of_mem Prod.fst h'
            simpa using this
          rw [he] at hnd
          exact (List.nodup_cons.1 hnd).1 hmem2
        unfold getAttrOpt at ih ⊢
        rw [List.find?_cons_of_neg _ (by simp [hk])]
        exact ih (List.nodup_cons.1 hnd).2 h'

theorem getAttrOpt_eq_none_iff {es : List (String × Value)} {k : String} :
    getAttrOpt es k = none ↔ k ∉ es.map Prod.fst := by
  unfold getAttrOpt
  rw [Option.map_eq_none', List.find?_eq_none]
  constructor
  · intro h hmem
    rcases List.mem_map.1 hmem with ⟨p, hp, hk⟩
    exact absurd (by simp [hk]) (h p hp)
  · intro h p hp
    simp only [beq_iff_eq]
    intro he
    exact h (List.mem_map.2 ⟨p, hp, he⟩)

theorem getAttrOpt_perm_nodup {es₁ es₂ : List (String × Value)} {k : String}
    (hp : es₁.Perm es₂) (hnd : (es₁.map Prod.fst).Nodup) :
    getAttrOpt es₁ k = getAttrOpt es₂ k := by
  have hnd₂ : (es₂.map Prod.fst).Nodup := ((hp.map Prod.fst).nodup_iff).1 hnd
  cases h : getAttrOpt es₁ k with
  | some v =>
    have := (getAttrOpt_eq_some_iff hnd).1 h
    exact ((getAttrOpt_eq_some_iff hnd₂).2 (hp.subset this)).symm
  | none =>
    have := getAttrOpt_eq_none_iff.1 h
    refine (getAttrOpt_eq_none_iff.2 ?_).symm
    intro hmem
    exact this ((hp.map Prod.fst).mem_iff.2 hmem)

/-- Looking an attribute up in the canonicalised entry list yields the
canonicalised attribute. -/
theorem getAttr_sortCanon {es : List (String × Value)} {k : String}
    (hnd : (es.map Prod.fst).Nodup) :
    getAttr (sortByKey (canonEntries es)) k = canon (getAttr es k) := by
  unfold getAttr
  have hnd' : ((canonEntries es).map Prod.fst).Nodup := by
    rw [canonEntries_keys]; exact hnd
  rw [getAttrOpt_perm_nodup (sortByKey_perm (canonEntries es))
    (by rw [(sortByKey_perm (canonEntries es)).map Prod.fst |>.nodup_iff]; exact hnd')]
  rw [canonEntries_eq_map, getAttrOpt_mapSnd]
  cases getAttrOpt es k with
  | none => simp [canon_null]
  | some v => simp

theorem wfB_getAttr {es : List (String × Value)} {k : String}
    (hwf : ∀ p ∈ es, wfB p.2 = true) : wfB (getAttr es k) = true := by
  unfold getAttr
  cases h : getAttrOpt es k with
  | none => simp [wfB]
  | some v =>
    unfold getAttrOpt at h
    cases hf : es.find? (fun p => p.1 == k) with
    | none => rw [hf] at h; simp at h
    | some p =>
      rw [hf] at h
      simp only [Option.map_some', Option.some.injEq] at h
      subst h
      exact hwf p (List.mem_of_find?_eq_some hf)

theorem perm_isEmpty {α : Type} {l₁ l₂ : List α} (h : l₁.Perm l₂) :
    l₁.isEmpty = l₂.isEmpty := by
  cases l₁ with
  | nil => rw [h.nil_eq]
  | cons a t =>
    cases l₂ with
    | nil => exact absurd h.symm.nil_eq (by simp)
    | cons b t₂ => rfl

theorem oldWriteMapBody_congr {es es' : List (String × Value)}
    (h : ∀ k, mapValueTokens (getAttr es' k) = mapValueTokens (getAttr es k)) :
    ∀ ks, oldWriteMapBody es' ks = oldWriteMapBody es ks
  | [] => rfl
  | k :: ks => by
    simp only [oldWriteMapBody, h k, oldWriteMapBody_congr h ks]

/-- `oldWriteMap` emits the same bytes on an entry list and on its canonical
(key-sorted, value-canonicalised) form. -/
theorem oldWriteMap_canon (es : List (String × Value)) (k : String)
    (hnd : (es.map Prod.fst).Nodup) :
    oldWriteMap k (sortByKey (canonEntries es)) = oldWriteMap k es := by
  have hkeys : ((sortByKey (canonEntries es)).map Prod.fst).Perm (es.map Prod.fst) := by
    have h1 := (sortByKey_perm (canonEntries es)).map Prod.fst
    rw [canonEntries_keys] at h1
    exact h1
  have hbody : ∀ ks, oldWriteMapBody (sortByKey (canonEntries es)) ks
      = oldWriteMapBody es ks :=
    oldWriteMapBody_congr (fun k' => by rw [getAttr_sortCanon hnd, mapValueTokens_canon])
  have hlen : (sortByKey (canonEntries es)).length = es.length := by
    rw [(sortByKey_perm (canonEntries es)).length_eq, canonEntries_eq_map,
      List.length_map]
  have hemp : (sortByKey (canonEntries es)).isEmpty = es.isEmpty := by
    rcases h1 : sortByKey (canonEntries es) with _ | ⟨a, t⟩ <;>
      rcases h2 : es with _ | ⟨b, u⟩ <;> rw [h1, h2] at hlen <;> simp_all
  unfold oldWriteMap
  rw [hemp, sortStrings_eq_of_perm hkeys, hbody]

theorem attrsOf_canon (v : Value) :
    attrsOf (canon v) = sortByKey (canonEntries (attrsOf v)) := by
  cases v <;> simp [canon, attrsOf, canonEntries, sortByKey, List.insertionSort]

theorem wf_attrsOf {v : Value} (h : wfB v = true) :
    ((attrsOf v).map Prod.fst).Nodup ∧ ∀ p ∈ attrsOf v, wfB p.2 = true := by
  cases v with
  | object es =>
    simp only [wfB, Bool.and_eq_true] at h
    exact ⟨nodup_of_nodupB h.1, wfEntriesB_iff.1 h.2⟩
  | _ => simp [attrsOf]

/-- Sorted-attribute emission is unchanged by canonicalising the entry list,
given that each attribute value may itself be canonicalised freely. -/
theorem writeAttrs_canon_aux {es : List (String × Value)}
    (hnd : (es.map Prod.fst).Nodup)
    (hrec : ∀ k', writeValue k' (getAttr es k') = writeValue k' (canon (getAttr es k'))) :
    writeAttrs (sortByKey (canonEntries es)) = writeAttrs es := by
  have hkeys : ((sortByKey (canonEntries es)).map Prod.fst).Perm (es.map Prod.fst) := by
    have h1 := (sortByKey_perm (canonEntries es)).map Prod.fst
    rw [canonEntries_keys] at h1
    exact h1
  have hkeysEq : ∀ ks, writeKeys (sortByKey (canonEntries es)) ks = writeKeys es ks := by
    intro ks
    induction ks with
    | nil => simp [writeKeys]
    | cons k ks ihk =>
      simp only [writeKeys]
      rw [getAttr_sortCanon hnd, ihk, ← hrec k]
  unfold writeAttrs
  rw [sortStrings_eq_of_perm hkeys, hkeysEq]

/-- Core invariance: emitting a well-formed value and emitting its canonical
form produce identical body items (and identical fallback tokens). -/
theorem writeValue_tokensFor_canon :
    ∀ n v, sizeOf v ≤ n → wfB v = true →
      (∀ k, writeValue k v = writeValue k (canon v))
        ∧ tokensForValue (canon v) = tokensForValue v := by
  intro n
  induction n with
  | zero =>
    intro v hs _
    exact absurd hs (by have := value_sizeOf_pos v; omega)
  | succ n ih =>
    intro v hs hwf
    have ihW : ∀ v', sizeOf v' ≤ n → wfB v' = true →
        ∀ k, writeValue k v' = writeValue k (canon v') :=
      fun v' h hw => (ih v' h hw).1
    have ihT : ∀ v', sizeOf v' ≤ n → wfB v' = true →
        tokensForValue (canon v') = tokensForValue v' :=
      fun v' h hw => (ih v' h hw).2
    cases v with
    | null => simp [canon]
    | str s => simp [canon]
    | bool b => simp [canon]
    | num m => simp [canon]
    | lit s => simp [canon]
    | list vs =>
      have hszvs : sizeOf vs ≤ n := by
        simp only [Value.list.sizeOf_spec] at hs
        omega
      have helem : ∀ v' ∈ vs, sizeOf v' ≤ n ∧ wfB v' = true := by
        intro v' hv
        refine ⟨?_, ?_⟩
        · have := List.sizeOf_lt_of_mem hv
          omega
        · simp only [wfB] at hwf
          exact wfListB_iff.1 hwf v' hv
      have f5 : tokensForValue (.list (canonList vs)) = tokensForValue (.list vs) := by
        simp only [tokensForValue]
        rw [tokensForValueList_eq, tokensForValueList_eq, canonList_eq_map,
          List.map_map]
        have hmc : List.map (tokensForValue ∘ canon) vs = List.map tokensForValue vs :=
          List.map_congr_left (fun v' hv => ihT v' (helem v' hv).1 (helem v' hv).2)
        rw [hmc]
      refine ⟨fun k => ?_, by simpa [canon] using f5⟩
      have f1 : (canonList vs).isEmpty = vs.isEmpty := by
        rw [canonList_eq_map]
        cases vs <;> simp
      have f2 : (canonList vs).filterMap asLiteral = vs.filterMap asLiteral := by
        rw [canonList_eq_map, List.filterMap_map,
          show asLiteral ∘ canon = asLiteral from funext asLiteral_canon]
      have f3 : isObjectV ((canonList vs).headD .null) = isObjectV (vs.headD .null) := by
        rw [canonList_eq_map]
        cases vs with
        | nil => simp
        | cons w ws => simp [isObjectV_canon]
      have f4 : writeObjList k (canonList vs) = writeObjList k vs := by
        rw [canonList_eq_map]
        have haux : ∀ ws, (∀ v' ∈ ws, sizeOf v' ≤ n ∧ wfB v' = true) →
            writeObjList k (ws.map canon) = writeObjList k ws := by
          intro ws hws
          induction ws with
          | nil => simp [writeObjList]
          | cons w rest ihw =>
            simp only [List.map_cons, writeObjList]
            have hblock : writeAttrs (attrsOf (canon w)) = writeAttrs (attrsOf w) := by
              rw [attrsOf_canon]
              have hw := (hws w (List.mem_cons_self _ _))
              refine writeAttrs_canon_aux (wf_attrsOf hw.2).1 (fun k' => ?_)
              refine ihW _ ?_ (wfB_getAttr (wf_attrsOf hw.2).2) k'
              have h1 := sizeOf_getAttr_le (attrsOf w) k'
              have h2 := sizeOf_attrsOf_le w
              omega
            rw [hblock, ihw (fun v' hv => hws v' (List.mem_cons_of_mem _ hv))]
        exact haux vs helem
      simp only [canon, writeValue]
      rw [f1, f2, f3, f4, f5]
    | object es =>
      have hszes : sizeOf es ≤ n := by
        simp only [Value.object.sizeOf_spec] at hs
        omega
      simp only [wfB, Bool.and_eq_true] at hwf
      have hnd : (es.map Prod.fst).Nodup := nodup_of_nodupB hwf.1
      have hvals : ∀ p ∈ es, wfB p.2 = true := wfEntriesB_iff.1 hwf.2
      have hszp : ∀ p ∈ es, sizeOf p.2 ≤ n := by
        intro p hp
        have h1 := List.sizeOf_lt_of_mem hp
        have h2 : sizeOf p.2 < sizeOf p := by
          cases p with
          | mk a b => simp <;> omega
        omega
      have hsort : sortByKey (tokensForValueEntries (sortByKey (canonEntries es)))
          = sortByKey (tokensForValueEntries es) := by
        rw [tokensForValueEntries_eq, tokensForValueEntries_eq]
        have hEq : (canonEntries es).map (fun p => (p.1, tokensForValue p.2))
            = es.map (fun p => (p.1, tokensForValue p.2)) := by
          rw [canonEntries_eq_map, List.map_map]
          exact List.map_congr_left
            (fun p hp => by simp [ihT p.2 (hszp p hp) (hvals p hp)])
        have hperm : ((sortByKey (canonEntries es)).map
              (fun p => (p.1, tokensForValue p.2))).Perm
            (es.map (fun p => (p.1, tokensForValue p.2))) := by
          rw [← hEq]
          exact (sortByKey_perm (canonEntries es)).map _
        refine sortByKey_eq_of_perm_nodup hperm ?_
        have hkeysame : ((sortByKey (canonEntries es)).map
              (fun p => (p.1, tokensForValue p.2))).map Prod.fst
            = (sortByKey (canonEntries es)).map Prod.fst := by
          rw [List.map_map]
          rfl
        rw [hkeysame]
        have hkp : ((sortByKey (canonEntries es)).map Prod.fst).Perm (es.map Prod.fst) := by
          have h1 := (sortByKey_perm (canonEntries es)).map Prod.fst
          rw [canonEntries_keys] at h1
          exact h1
        exact hkp.nodup_iff.2 hnd
      have hrec : ∀ k', writeValue k' (getAttr es k')
          = writeValue k' (canon (getAttr es k')) := by
        intro k'
        refine ihW _ ?_ (wfB_getAttr hvals) k'
        have h1 := sizeOf_getAttr_le es k'
        omega
      constructor
      · intro k
        simp only [canon, writeValue]
        rw [writeAttrs_canon_aux hnd hrec]
      · simp only [canon, tokensForValue]
        unfold flattenSortedTok
        rw [hsort]
    | map es =>
      have hszes : sizeOf es ≤ n := by
        simp only [Value.map.sizeOf_spec] at hs
        omega
      simp only [wfB, Bool.and_eq_true] at hwf
      have hnd : (es.map Prod.fst).Nodup := nodup_of_nodupB hwf.1
      have hvals : ∀ p ∈ es, wfB p.2 = true := wfEntriesB_iff.1 hwf.2
      have hszp : ∀ p ∈ es, sizeOf p.2 ≤ n := by
        intro p hp
        have h1 := List.sizeOf_lt_of_mem hp
        have h2 : sizeOf p.2 < sizeOf p := by
          cases p with
          | mk a b => simp <;> omega
        omega
      have hsort : sortByKey (tokensForValueEntries (sortByKey (canonEntries es)))
          = sortByKey (tokensForValueEntries es) := by
        rw [tokensForValueEntries_eq, tokensForValueEntries_eq]
        have hEq : (canonEntries es).map (fun p => (p.1, tokensForValue p.2))
            = es.map (fun p => (p.1, tokensForValue p.2)) := by
          rw [canonEntries_eq_map, List.map_map]
          exact List.map_congr_left
            (fun p hp => by simp [ihT p.2 (hszp p hp) (hvals p hp)])
        have hperm : ((sortByKey (canonEntries es)).map
              (fun p => (p.1, tokensForValue p.2))).Perm
            (es.map (fun p => (p.1, tokensForValue p.2))) := by
          rw [← hEq]
          exact (sortByKey_perm (canonEntries es)).map _
        refine sortByKey_eq_of_perm_nodup hperm ?_
        have hkeysame : ((sortByKey (canonEntries es)).map
              (fun p => (p.1, tokensForValue p.2))).map Prod.fst
            = (sortByKey (canonEntries es)).map Prod.fst := by
          rw [List.map_map]
          rfl
        rw [hkeysame]
        have hkp : ((sortByKey (canonEntries es)).map Prod.fst).Perm (es.map Prod.fst) := by
          have h1 := (sortByKey_perm (canonEntries es)).map Prod.fst
          rw [canonEntries_keys] at h1
          exact h1
        exact hkp.nodup_iff.2 hnd
      constructor
      · intro k
        simp only [canon, writeValue]
        rw [oldWriteMap_canon es k hnd]
      · simp only [canon, tokensForValue]
        unfold flattenSortedTok
        rw [hsort]

/-- Claim C1: the config value writer is deterministic — two calls to
`writeValue` (or to the map emitter `oldWriteMap`) on the same logical value
tree, i.e. on well-formed trees with the same canonical form (which in
particular covers maps and objects whose keys were inserted in different
orders), produce byte-identical output, because every key set is sorted
before emission. -/
theorem tfwriter_deterministic :
    (∀ k v w, wfB v = true → wfB w = true → canon v = canon w →
      writeValue k v = writeValue k w)
    ∧ (∀ k es fs, wfB (.map es) = true → wfB (.map fs) = true →
      canon (.map es) = canon (.map fs) → oldWriteMap k es = oldWriteMap k fs) := by
  constructor
  · intro k v w hv hw hc
    have h1 := (writeValue_tokensFor_canon (sizeOf v) v le_rfl hv).1 k
    have h2 := (writeValue_tokensFor_canon (sizeOf w) w le_rfl hw).1 k
    rw [h1, h2, hc]
  · intro k es fs hes hfs hc
    simp only [canon, Value.map.injEq] at hc
    simp only [wfB, Bool.and_eq_true] at hes hfs
    have h1 := oldWriteMap_canon es k (nodup_of_nodupB hes.1)
    have h2 := oldWriteMap_canon fs k (nodup_of_nodupB hfs.1)
    rw [← h1, ← h2, hc]

/-- Witness for C1: the same two-entry map inserted in the orders
`b, a` and `a, b` (one plain string value, one Deferred Value) is well-formed,
has a common canonical form, and is emitted byte-identically. -/
theorem tfwriter_deterministic_witness :
    wfB (.map [("b", .str "two"), ("a", .lit "aws_subnet.a.id")]) = true
    ∧ wfB (.map [("a", .lit "aws_subnet.a.id"), ("b", .str "two")]) = true
    ∧ canon (.map [("b", .str "two"), ("a", .lit "aws_subnet.a.id")])
      = canon (.map [("a", .lit "aws_subnet.a.id"), ("b", .str "two")])
    ∧ writeValue "tags" (.map [("b", .str "two"), ("a", .lit "aws_subnet.a.id")])
      = writeValue "tags" (.map [("a", .lit "aws_subnet.a.id"), ("b", .str "two")]) := by
  have h1 : wfB (.map [("b", .str "two"), ("a", .lit "aws_subnet.a.id")]) = true := by
    simp [wfB, wfEntriesB, nodupB, memB]
  have h2 : wfB (.map [("a", .lit "aws_subnet.a.id"), ("b", .str "two")]) = true := by
    simp [wfB, wfEntriesB, nodupB, memB]
  have h3 : canon (.map [("b", .str "two"), ("a", .lit "aws_subnet.a.id")])
      = canon (.map [("a", .lit "aws_subnet.a.id"), ("b", .str "two")]) := by
    simp [canon, canonEntries, sortByKey, List.insertionSort, List.orderedInsert,
      keyRel, strLeB, lexLE]
  exact ⟨h1, h2, h3, tfwriter_deterministic.1 "tags" _ _ h1 h2 h3⟩

/-- The per-value quoting rule as the specification words it: a value is
emitted unquoted exactly when it is a Deferred Value or a list of Deferred
Values, and quoted otherwise. -/
def specMapValueTokens (v : Value) : List String :=
  if (asLiteral v).isSome then [(asLiteral v).getD ""]
  else if (asLiteralList v).isSome then literalListTokens ((asLiteralList v).getD [])
  else [" \"", asString v, " \""]

/-- The map emitter as the specification words it: a multi-line block of
`"key" = value` pairs, keys sorted lexicographically, each value resolved
through `specMapValueTokens`. -/
def specMapEmit (key : String) (values : List (String × Value)) : List BodyItem :=
  if values.isEmpty then []
  else
    [ .attr key ((" \x7b" :: "\n" ::
        ((sortStrings (values.map Prod.fst)).map
          (fun k => ([" \"", k, " \"", " ="] ++ specMapValueTokens (getAttr values k))
            ++ ["\n"])).flatten) ++ ["\x7d"]) ]

theorem mapValueTokens_eq_spec (v : Value) :
    mapValueTokens v = specMapValueTokens v := by
  unfold mapValueTokens specMapValueTokens
  cases h1 : asLiteral v with
  | some s => simp
  | none =>
    cases h2 : asLiteralList v with
    | some ls => simp
    | none => simp

theorem oldWriteMapBody_eq_spec (values : List (String × Value)) : ∀ ks,
    oldWriteMapBody values ks
      = (ks.map (fun k => ([" \"", k, " \"", " ="]
          ++ specMapValueTokens (getAttr values k)) ++ ["\n"])).flatten
  | [] => rfl
  | k :: ks => by
    simp only [oldWriteMapBody, List.map_cons, List.flatten_cons,
      mapValueTokens_eq_spec, oldWriteMapBody_eq_spec values ks,
      List.append_assoc, List.cons_append, List.nil_append]

/-- Claim C2: `oldWriteMap` lists keys in lexicographic order and emits each
value unquoted exactly when it is a Deferred Value or a list of Deferred
Values, quoted otherwise (refinement against the spec-worded emitter); in
particular the map inserted as `b ↦ "B", a ↦ deferredA` emits `"a"` first
with a bare token and `"b"` second with a quoted one. -/
theorem oldWriteMap_matches_spec :
    (∀ key values, oldWriteMap key values = specMapEmit key values)
    ∧ oldWriteMap "k" [("b", .str "B"), ("a", .lit "aws_route53_record.a.id")]
      = [ .attr "k" [" \x7b", "\n",
          " \"", "a", " \"", " =", "aws_route53_record.a.id", "\n",
          " \"", "b", " \"", " =", " \"", "B", " \"", "\n", "\x7d"] ] := by
  constructor
  · intro key values
    unfold oldWriteMap specMapEmit
    rw [oldWriteMapBody_eq_spec]
  · rfl

/-! ### The ClassicLoadBalancer task
(`upup/pkg/fi/cloudup/awstasks/classic_load_balancer.go`)

Pointer-valued task fields become `Option`; Go slices become `List`; the Go
maps `Listeners` and `Tags` become association lists.  The auxiliary structs
(`ClassicLoadBalancerHealthCheck` and friends) are declared in sibling files
not under `src/`; their fields are reconstructed from every use in this file.
`fi.ValueOf` dereferences a possibly-nil pointer with the zero value as
default. -/

def valueOf (s : Option String) : String := s.getD ""

def valueOfB (b : Option Bool) : Bool := b.getD false

/-- `strings.HasPrefix`, at the level of character lists so that it is
kernel-executable. -/
def strHasPfx (p s : String) : Bool := p.data.isPrefixOf s.data

structure Subnet where
  Name : Option String
  ID : Option String
deriving DecidableEq

structure SecurityGroup where
  Name : Option String
  ID : Option String
deriving DecidableEq

structure ClassicLoadBalancerListener where
  InstancePort : Int
  SSLCertificateID : String
deriving DecidableEq

structure ClassicLoadBalancerHealthCheck where
  Target : Option String
  HealthyThreshold : Option Int
  UnhealthyThreshold : Option Int
  Interval : Option Int
  Timeout : Option Int
deriving DecidableEq

/-- `S3BucketPfx` stands for the source's bucket-key-prefix field. -/
structure ClassicLoadBalancerAccessLog where
  EmitInterval : Option Int
  Enabled : Option Bool
  S3BucketName : Option String
  S3BucketPfx : Option String
deriving DecidableEq

structure ClassicLoadBalancerConnectionDraining where
  Enabled : Option Bool
  Timeout : Option Int
deriving DecidableEq

structure ClassicLoadBalancerConnectionSettings where
  IdleTimeout : Option Int
deriving DecidableEq

structure ClassicLoadBalancerCrossZoneLoadBalancing where
  Enabled : Option Bool
deriving DecidableEq

structure ClassicLoadBalancer where
  Name : Option String
  LoadBalancerName : Option String
  DNSName : Option String
  HostedZoneId : Option String
  Subnets : List Subnet
  SecurityGroups : List SecurityGroup
  Listeners : List (String × ClassicLoadBalancerListener)
  Scheme : Option String
  HealthCheck : Option ClassicLoadBalancerHealthCheck
  AccessLog : Option ClassicLoadBalancerAccessLog
  ConnectionDraining : Option ClassicLoadBalancerConnectionDraining
  ConnectionSettings : Option ClassicLoadBalancerConnectionSettings
  CrossZoneLoadBalancing : Option ClassicLoadBalancerCrossZoneLoadBalancing
  SSLCertificateID : String
  Tags : List (String × String)
  Shared : Option Bool
  WellKnownServices : List String
deriving DecidableEq

/-- The all-unset task (Go zero value), a convenient base for literals. -/
def emptyCLB : ClassicLoadBalancer :=
  { Name := none, LoadBalancerName := none, DNSName := none, HostedZoneId := none,
    Subnets := [], SecurityGroups := [], Listeners := [], Scheme := none,
    HealthCheck := none, AccessLog := none, ConnectionDraining := none,
    ConnectionSettings := none, CrossZoneLoadBalancing := none,
    SSLCertificateID := "", Tags := [], Shared := none, WellKnownServices := [] }

/-- Errors as the Go code can observe them: `aws` is an error satisfying the
`awserr.Error` interface (it has a `Code()`); `std` is any other error — in
particular the `*fmt.wrapError` produced by `fmt.Errorf("...: %w", err)`,
which does not satisfy a type assertion to `awserr.Error`. -/
inductive GoErr where
  | aws (code msg : String)
  | std (msg : String)
deriving DecidableEq

def errMsg : GoErr → String
  | .aws code msg => code ++ ": " ++ msg
  | .std msg => msg

instance {ε α : Type} [DecidableEq ε] [DecidableEq α] :
    DecidableEq (Except ε α) := fun x y =>
  match x, y with
  | .ok a, .ok b =>
    if h : a = b then isTrue (by rw [h])
    else isFalse (fun hc => by cases hc; exact h rfl)
  | .error a, .error b =>
    if h : a = b then isTrue (by rw [h])
    else isFalse (fun hc => by cases hc; exact h rfl)
  | .ok _, .error _ => isFalse (fun hc => by cases hc)
  | .error _, .ok _ => isFalse (fun hc => by cases hc)

/-- The fields of `elbtypes.Listener` in a `ListenerDescription` that the
task reads. -/
structure LDesc where
  loadBalancerPort : Int
  instancePort : Int
  sslCertificateId : Option String
deriving DecidableEq

/-- The fields of `elbtypes.LoadBalancerDescription` that the task reads.
The SDK models them as pointers that Describe responses always populate;
they are flattened to plain values. -/
structure LBDesc where
  loadBalancerName : String
  dnsName : String
  canonicalHostedZoneNameID : String
  scheme : String
  subnets : List String
  securityGroups : List String
  listenerDescriptions : List LDesc
deriving DecidableEq

/-- `describeLoadBalancers` (lines 193–209): the provider response is the
environment's to give; matching descriptions are kept, and any provider
error is wrapped with `fmt.Errorf("error listing ELBs: %w", err)` — the
wrapper is a plain error (`GoErr.std`), no longer an `awserr.Error`. -/
def describeLoadBalancers (resp : Except GoErr (List LBDesc))
    (filter : LBDesc → Bool) : Except GoErr (List LBDesc) :=
  match resp with
  | .error e => .error (.std ("error listing ELBs: " ++ errMsg e))
  | .ok lbs => .ok (lbs.filter filter)

/-- `findLoadBalancerByLoadBalancerName` (lines 119–152): filter by exact
name; a `LoadBalancerNotFound` aws error code maps to the absent result —
but only when the observed error is itself an `awserr.Error`, and
`describeLoadBalancers` has already wrapped it; zero matches are absent, two
or more are an error. -/
def findLoadBalancerByLoadBalancerName (resp : Except GoErr (List LBDesc))
    (loadBalancerName : String) : Except GoErr (Option LBDesc) :=
  match describeLoadBalancers resp
      (fun lb => lb.loadBalancerName == loadBalancerName) with
  | .error err =>
    match err with
    | .aws code _ =>
      if code == "LoadBalancerNotFound" then .ok none
      else .error (.std ("error listing ELBs: " ++ errMsg err))
    | .std _ => .error (.std ("error listing ELBs: " ++ errMsg err))
  | .ok found =>
    if found.length == 0 then .ok none
    else if found.length ≠ 1 then
      .error (.std ("Found multiple ELBs with name " ++ loadBalancerName))
    else .ok found.head?

structure AliasTarget where
  dnsName : Option String
  hostedZoneId : Option String
deriving DecidableEq

/-- `strings.TrimSuffix(s, ".")`: drop one trailing dot if present. -/
def trimDotSuffix (s : String) : String :=
  match s.data.getLast? with
  | some '.' => String.mk s.data.dropLast
  | _ => s

/-- The alias-matching filter of `findLoadBalancerByAlias` (lines 167–177):
hosted-zone ids must agree and the dns name must match directly or through
the `dualstack.` alias. -/
def aliasFilter (matchHostedZoneId matchDnsName : String) (lb : LBDesc) : Bool :=
  if matchHostedZoneId != lb.canonicalHostedZoneNameID then false
  else
    (trimDotSuffix lb.dnsName == matchDnsName)
      || (("dualstack." ++ trimDotSuffix lb.dnsName) == matchDnsName)

/-- `findLoadBalancerByAlias` (lines 154–191): requires a dns name, lists
all load balancers, filters by `aliasFilter`; zero matches are absent, two
or more are an error; list errors are propagated (there is no not-found
mapping on this path). -/
def findLoadBalancerByAlias (resp : Except GoErr (List LBDesc))
    (tgt : AliasTarget) : Except GoErr (Option LBDesc) :=
  let dnsName := valueOf tgt.dnsName
  let matchDnsName := trimDotSuffix dnsName
  if matchDnsName == "" then .error (.std "DNSName not set on AliasTarget")
  else
    match describeLoadBalancers resp
        (aliasFilter (valueOf tgt.hostedZoneId) matchDnsName) with
    | .error err => .error (.std ("error listing ELBs: " ++ errMsg err))
    | .ok found =>
      if found.length == 0 then .ok none
      else if found.length ≠ 1 then
        .error (.std ("Found multiple ELBs with DNSName " ++ dnsName))
      else .ok found.head?

structure LBAccessLogAttr where
  enabled : Bool
  emitInterval : Option Int
  s3BucketName : Option String
  s3BucketPfx : Option String
deriving DecidableEq

structure LBConnectionDrainingAttr where
  enabled : Bool
  timeout : Option Int
deriving DecidableEq

structure LBConnectionSettingsAttr where
  idleTimeout : Option Int
deriving DecidableEq

structure LBCrossZoneAttr where
  enabled : Bool
deriving DecidableEq

/-- The load-balancer attributes returned by `findELBAttributes` (defined in
a sibling file not under `src/`); the fields are those lines 287–316 read. -/
structure LBAttributes where
  accessLog : LBAccessLogAttr
  connectionDraining : LBConnectionDrainingAttr
  connectionSettings : LBConnectionSettingsAttr
  crossZoneLoadBalancing : LBCrossZoneAttr
deriving DecidableEq

/-- The cloud responses `Find` consumes: `FindELBByNameTag`,
`DescribeELBTags` (a map from load-balancer name to its tag list),
`findHealthCheck` and `findELBAttributes` all live outside `src/` and are
treated as collaborators whose results the environment supplies. -/
structure FindEnv where
  elbByNameTag : Except GoErr (Option LBDesc)
  describeTags : Except GoErr (List (String × List (String × String)))
  healthCheck : Except GoErr (Option ClassicLoadBalancerHealthCheck)
  lbAttributes : Except GoErr (Option LBAttributes)

/-- Go map assignment `m[k] = v` on an association list: replace an existing
binding, else append. -/
def listInsert {β : Type} (m : List (String × β)) (k : String) (v : β) :
    List (String × β) :=
  if m.any (fun p => p.1 == k) then m.map (fun p => if p.1 == k then (k, v) else p)
  else m ++ [(k, v)]

/-- Modelled from the spec: `subnetSlicesEqualIgnoreOrder` is code of this
repository that is not under `src/` (only its caller is). The spec compares
reference lists as sets, so this compares the two subnet-ID lists up to
order. -/
def subnetSlicesEqualIgnoreOrder (l r : List Subnet) : Bool :=
  sortStrings (l.map (fun s => valueOf s.ID))
    == sortStrings (r.map (fun s => valueOf s.ID))

/-- Modelled from the spec: the comparator `OrderSubnetsById` lives in a file
not under `src/`; the spec says normalisation sorts reference lists by the
referenced resource's identifier. -/
def subnetIdRel : Subnet → Subnet → Prop :=
  fun a b => strLeB (valueOf a.ID) (valueOf b.ID) = true

instance : DecidableRel subnetIdRel := fun _ _ => inferInstanceAs (Decidable (_ = true))

/-- Modelled from the spec: the comparator `OrderSecurityGroupsById` lives in
a file not under `src/`. -/
def sgIdRel : SecurityGroup → SecurityGroup → Prop :=
  fun a b => strLeB (valueOf a.ID) (valueOf b.ID) = true

instance : DecidableRel sgIdRel := fun _ _ => inferInstanceAs (Decidable (_ = true))

/-- `Normalize` (lines 385–390): stably sort the subnet and security-group
reference lists (`sort.Stable`, embedded as the stable `insertionSort`);
always succeeds. -/
def Normalize (e : ClassicLoadBalancer) : ClassicLoadBalancer :=
  { e with Subnets := e.Subnets.insertionSort subnetIdRel,
           SecurityGroups := e.SecurityGroups.insertionSort sgIdRel }

/-- `Find` (lines 219–346): discovery by name tag; builds the actual
snapshot, backfills the desired task's dns fields when unset, and always
adopts the discovered `LoadBalancerName` when it differs (lines 333–339).
Line 247 indexes the tag map with `*e.LoadBalancerName`: when the desired
task has no LoadBalancerName and a load balancer was found, Go panics on the
nil dereference, embedded as an error. -/
def Find (env : FindEnv) (e : ClassicLoadBalancer) :
    Except GoErr (Option ClassicLoadBalancer × ClassicLoadBalancer) :=
  match env.elbByNameTag with
  | .error err => .error err
  | .ok none => .ok (none, e)
  | .ok (some lb) =>
    match env.describeTags with
    | .error err => .error err
    | .ok tagMap =>
      match e.LoadBalancerName with
      | none => .error (.std "panic: runtime error: invalid memory address or nil pointer dereference")
      | some eLBName =>
        let tags := (((tagMap.find? (fun p => p.1 == eLBName)).map Prod.snd).getD []).filter
          (fun t => !(strHasPfx "aws:cloudformation:" t.1))
        match env.healthCheck with
        | .error err => .error err
        | .ok hc =>
          match env.lbAttributes with
          | .error err => .error err
          | .ok attrs =>
            let actual : ClassicLoadBalancer :=
              { Name := e.Name
                LoadBalancerName := some lb.loadBalancerName
                DNSName := some lb.dnsName
                HostedZoneId := some lb.canonicalHostedZoneNameID
                Scheme := some lb.scheme
                Subnets := lb.subnets.map (fun s => { Name := none, ID := some s })
                SecurityGroups := lb.securityGroups.map
                  (fun s => { Name := none, ID := some s })
                Listeners := lb.listenerDescriptions.foldl (fun acc ld =>
                  listInsert acc (toString ld.loadBalancerPort)
                    { InstancePort := ld.instancePort,
                      SSLCertificateID := valueOf ld.sslCertificateId }) []
                HealthCheck := hc
                AccessLog := none
                ConnectionDraining := none
                ConnectionSettings := none
                CrossZoneLoadBalancing := none
                SSLCertificateID := ""
                Tags := tags
                Shared := none
                WellKnownServices := e.WellKnownServices }
            let actual1 :=
              match attrs with
              | none => actual
              | some la =>
                { actual with
                  AccessLog := some
                    { Enabled := some la.accessLog.enabled,
                      EmitInterval := la.accessLog.emitInterval,
                      S3BucketName := la.accessLog.s3BucketName,
                      S3BucketPfx := la.accessLog.s3BucketPfx }
                  ConnectionDraining := some
                    { Enabled := if la.connectionDraining.enabled then some true else none,
                      Timeout := la.connectionDraining.timeout }
                  ConnectionSettings := some
                    { IdleTimeout := la.connectionSettings.idleTimeout }
                  CrossZoneLoadBalancing := some
                    { Enabled := some la.crossZoneLoadBalancing.enabled } }
            let actual2 :=
              if subnetSlicesEqualIgnoreOrder actual1.Subnets e.Subnets
              then { actual1 with Subnets := e.Subnets } else actual1
            let e1 := { e with DNSName :=
              if e.DNSName.isNone then actual2.DNSName else e.DNSName }
            let e2 := { e1 with HostedZoneId :=
              if e1.HostedZoneId.isNone then actual2.HostedZoneId else e1.HostedZoneId }
            let e3 := { e2 with LoadBalancerName :=
              if e2.LoadBalancerName.isNone then actual2.LoadBalancerName
              else e2.LoadBalancerName }
            let e4 :=
              if valueOf e3.LoadBalancerName ≠ valueOf actual2.LoadBalancerName
              then { e3 with LoadBalancerName := actual2.LoadBalancerName } else e3
            .ok (some (Normalize actual2), e4)

/-- `ShouldCreate` (lines 378–383): `(false, nil)` exactly for shared tasks.
The error result is the literal `nil` in both branches and is dropped. -/
def ShouldCreate (a : Option ClassicLoadBalancer) (e changes : ClassicLoadBalancer) :
    Bool :=
  if valueOfB e.Shared then false else true

/-- `CheckChanges` (lines 392–432): on first creation (`a == nil`) enforce
the required fields, returning `fi.RequiredField(field)` (modelled as
`some field`); on update return `nil`.  The function reads its arguments and
mutates nothing. -/
def CheckChanges (a : Option ClassicLoadBalancer)
    (e changes : ClassicLoadBalancer) : Option String :=
  match a with
  | some _ => none
  | none =>
    if valueOf e.Name == "" then some "Name"
    else if !valueOfB e.Shared && e.SecurityGroups.isEmpty then some "SecurityGroups"
    else if !valueOfB e.Shared && e.Subnets.isEmpty then some "Subnets"
    else checkChangesAccessLog e
where
  checkChangesAccessLog (e : ClassicLoadBalancer) : Option String :=
    match e.AccessLog with
    | some al =>
      if al.Enabled.isNone then some "Acceslog.Enabled"
      else if valueOfB al.Enabled && al.S3BucketName.isNone then some "Acceslog.S3Bucket"
      else checkChangesTail e
    | none => checkChangesTail e
  checkChangesTail (e : ClassicLoadBalancer) : Option String :=
    match e.ConnectionDraining with
    | some cd =>
      if cd.Enabled.isNone then some "ConnectionDraining.Enabled"
      else checkChangesCrossZone e
    | none => checkChangesCrossZone e
  checkChangesCrossZone (e : ClassicLoadBalancer) : Option String :=
    match e.CrossZoneLoadBalancing with
    | some cz =>
      if cz.Enabled.isNone then some "CrossZoneLoadBalancing.Enabled"
      else none
    | none => none

/-- Decimal accumulation for `strconv.ParseInt`. -/
def digitsToNat (acc : Nat) : List Char → Option Nat
  | [] => some acc
  | c :: cs => if c.isDigit then digitsToNat (acc * 10 + (c.toNat - 48)) cs else none

/-- `strconv.ParseInt(s, 10, bits)`: optional sign, decimal digits only, and
the signed `bits`-bit range check (range overflow is an error). -/
def parseIntBits (bits : Nat) (s : String) : Option Int :=
  match s.data with
  | [] => none
  | '+' :: cs =>
    if cs.isEmpty then none
    else (digitsToNat 0 cs).bind
      (fun n => if n ≤ 2 ^ (bits - 1) - 1 then some (Int.ofNat n) else none)
  | '-' :: cs =>
    if cs.isEmpty then none
    else (digitsToNat 0 cs).bind
      (fun n => if n ≤ 2 ^ (bits - 1) then some (-(Int.ofNat n)) else none)
  | cs =>
    (digitsToNat 0 cs).bind
      (fun n => if n ≤ 2 ^ (bits - 1) - 1 then some (Int.ofNat n) else none)

/-- The `elbtypes.Listener` built by `mapToAWS`. -/
structure AWSListener where
  loadBalancerPort : Int
  instancePort : Int
  protocol : String
  instanceProtocol : String
  sslCertificateId : Option String
deriving DecidableEq

/-- `ClassicLoadBalancerListener.mapToAWS` (lines 95–111). -/
def ClassicLoadBalancerListener.mapToAWS (l : ClassicLoadBalancerListener)
    (loadBalancerPort : Int) : AWSListener :=
  if l.SSLCertificateID != "" then
    { loadBalancerPort := loadBalancerPort, instancePort := l.InstancePort,
      protocol := "SSL", instanceProtocol := "SSL",
      sslCertificateId := some l.SSLCertificateID }
  else
    { loadBalancerPort := loadBalancerPort, instancePort := l.InstancePort,
      protocol := "TCP", instanceProtocol := "TCP", sslCertificateId := none }

/-- The loop building listener requests: each key is parsed with
`strconv.ParseInt(port, 10, 32)` and mapped via `mapToAWS`; a parse failure
aborts. -/
def listenersToAWS : List (String × ClassicLoadBalancerListener) →
    Option (List AWSListener)
  | [] => some []
  | (port, l) :: rest =>
    match parseIntBits 32 port with
    | none => none
    | some p => (listenersToAWS rest).map (fun ls => l.mapToAWS p :: ls)

/-- One mutating cloud call issued by `RenderAWS`, with its arguments.
`modifyAttributes` stands for the whole `modifyLoadBalancerAttributes`
sub-operation (defined in a sibling file not under `src/`), which issues no
subnet or listener calls. -/
inductive CloudCall where
  | createLoadBalancer (name : String) (scheme : Option String)
      (subnets sgs : List String) (listeners : List AWSListener)
  | detachFromSubnets (name : String) (subnets : List String)
  | attachToSubnets (name : String) (subnets : List String)
  | applySecurityGroups (name : String) (sgs : List String)
  | deleteListeners (name : String) (ports : List Int)
  | createListeners (name : String) (listeners : List AWSListener)
  | addELBTags (name : String) (tags : List (String × String))
  | removeELBTags (name : String) (tags : List (String × String))
  | configureHealthCheck (name : String) (hc : ClassicLoadBalancerHealthCheck)
  | modifyAttributes (name : String)
deriving DecidableEq

/-- Cloud responses for `RenderAWS`: the `CreateLoadBalancer` result (error
or the response's DNSName), the raw describe response used by the requeries,
and the outcome of every other mutating call. -/
structure AWSEnv where
  createResult : Except String (Option String)
  describeByName : String → Except GoErr (List LBDesc)
  callErr : CloudCall → Option String

/-- The result of `RenderAWS`: the ordered trace of issued mutating calls,
the (possibly updated) desired task, and the error if one stopped it. -/
structure RenderOut where
  calls : List CloudCall
  task : ClassicLoadBalancer
  err : Option String
deriving DecidableEq

/-- Modelled from the spec: `slice.GetUniqueStrings` is code of this
repository that is not under `src/` (only its call sites are).  The spec
says the update path detaches actual−desired and attaches desired−actual,
and the call sites pass `(expected, actual)` and `(actual, expected)`, so
`GetUniqueStrings main extra` returns the strings of `extra` not in
`main`. -/
def GetUniqueStrings (main extra : List String) : List String :=
  extra.filter (fun s => !memB s main)

/-- Run one phase; on success continue with the next, concatenating call
traces; on error stop (matching the source's early returns). -/
def seqPhase (p : List CloudCall × Option String)
    (q : Unit → List CloudCall × Option String) : List CloudCall × Option String :=
  match p.2 with
  | some _ => p
  | none => (p.1 ++ (q ()).1, (q ()).2)

/-- The attach half of the subnet reconciliation (lines 516–526). -/
def attachPhase (env : AWSEnv) (lbName : String) (newSubnetIDs : List String) :
    List CloudCall × Option String :=
  if newSubnetIDs.isEmpty then ([], none)
  else
    let c := CloudCall.attachToSubnets lbName newSubnetIDs
    ([c], (env.callErr c).map
      (fun m => "Error attaching Load Balancer to new subnets: " ++ m))

/-- `oldSubnetIDs` of the update path (lines 498–500):
`GetUniqueStrings(expectedSubnets, actualSubnets)`, the subnet ids attached
on the cloud but no longer desired. -/
def subnetDetachSet (av e : ClassicLoadBalancer) : List String :=
  GetUniqueStrings (e.Subnets.map (fun s => valueOf s.ID))
    (av.Subnets.map (fun s => valueOf s.ID))

/-- `newSubnetIDs` of the update path (line 501):
`GetUniqueStrings(actualSubnets, expectedSubnets)`, the desired subnet ids
not yet attached on the cloud. -/
def subnetAttachSet (av e : ClassicLoadBalancer) : List String :=
  GetUniqueStrings (av.Subnets.map (fun s => valueOf s.ID))
    (e.Subnets.map (fun s => valueOf s.ID))

/-- Subnet reconciliation on update (lines 493–527): when the changes record
flags the subnet list, detach `subnetDetachSet` if non-empty, then attach
`subnetAttachSet` if non-empty. -/
def subnetPhase (env : AWSEnv) (av e changes : ClassicLoadBalancer)
    (lbName : String) : List CloudCall × Option String :=
  if changes.Subnets.isEmpty then ([], none)
  else
    if (subnetDetachSet av e).isEmpty then
      attachPhase env lbName (subnetAttachSet av e)
    else
      let c := CloudCall.detachFromSubnets lbName (subnetDetachSet av e)
      match env.callErr c with
      | some m => ([c], some ("Error detaching Load Balancer from old subnets: " ++ m))
      | none =>
        match attachPhase env lbName (subnetAttachSet av e) with
        | (cs, r) => (c :: cs, r)

/-- Security-group replacement on update (lines 529–540). -/
def sgPhase (env : AWSEnv) (e changes : ClassicLoadBalancer) (lbName : String) :
    List CloudCall × Option String :=
  if changes.SecurityGroups.isEmpty then ([], none)
  else
    let c := CloudCall.applySecurityGroups lbName
      (e.SecurityGroups.map (fun g => valueOf g.ID))
    ([c], (env.callErr c).map
      (fun m => "Error updating security groups on Load Balancer: " ++ m))

/-- Listener reconciliation on update (lines 542–575): requery the load
balancer; when found, delete the port-443 listener (the delete's own result
is discarded by the source); then create every changed listener. -/
def listenerPhase (env : AWSEnv) (changes : ClassicLoadBalancer)
    (lbName : String) : List CloudCall × Option String :=
  if changes.Listeners.isEmpty then ([], none)
  else
    match findLoadBalancerByLoadBalancerName (env.describeByName lbName) lbName with
    | .error err => ([], some ("error getting load balancer by name: " ++ errMsg err))
    | .ok descOpt =>
      let dels : List CloudCall :=
        match descOpt with
        | some _ => [CloudCall.deleteListeners lbName [443]]
        | none => []
      match listenersToAWS changes.Listeners with
      | none => (dels, some "error parsing load balancer listener port")
      | some ls =>
        let c := CloudCall.createListeners lbName ls
        (dels ++ [c], (env.callErr c).map
          (fun m => "error creating LoadBalancerListeners: " ++ m))

/-- Tag reconciliation (lines 578–584): add desired tags, then remove tags
no longer desired. -/
def tagsPhase (env : AWSEnv) (e : ClassicLoadBalancer) (lbName : String) :
    List CloudCall × Option String :=
  let c1 := CloudCall.addELBTags lbName e.Tags
  match env.callErr c1 with
  | some m => ([c1], some m)
  | none =>
    let c2 := CloudCall.removeELBTags lbName e.Tags
    ([c1, c2], env.callErr c2)

/-- Health-check configuration (lines 586–603), applied when both the
changes record and the desired state carry a health check. -/
def healthPhase (env : AWSEnv) (e changes : ClassicLoadBalancer)
    (lbName : String) : List CloudCall × Option String :=
  match changes.HealthCheck, e.HealthCheck with
  | some _, some hc =>
    let c := CloudCall.configureHealthCheck lbName hc
    ([c], (env.callErr c).map
      (fun m => "error configuring health checks on ELB: " ++ m))
  | _, _ => ([], none)

/-- The `modifyLoadBalancerAttributes` sub-operation (line 605; its body is
in a sibling file not under `src/`), traced as one opaque call. -/
def attrsPhase (env : AWSEnv) (lbName : String) : List CloudCall × Option String :=
  let c := CloudCall.modifyAttributes lbName
  ([c], env.callErr c)

/-- `RenderAWS` (lines 434–611). -/
def RenderAWS (env : AWSEnv) (a : Option ClassicLoadBalancer)
    (e changes : ClassicLoadBalancer) : RenderOut :=
  if valueOfB e.Shared then { calls := [], task := e, err := none }
  else
    match a with
    | none =>
      match e.LoadBalancerName with
      | none => { calls := [], task := e, err := some "Required field LoadBalancerName" }
      | some lbName =>
        match listenersToAWS e.Listeners with
        | none =>
          { calls := [], task := e, err := some "error parsing load balancer listener port" }
        | some ls =>
          let c := CloudCall.createLoadBalancer lbName e.Scheme
            (e.Subnets.map (fun s => valueOf s.ID))
            (e.SecurityGroups.map (fun g => valueOf g.ID)) ls
          match env.createResult with
          | .error m =>
            { calls := [c], task := e, err := some ("error creating ELB: " ++ m) }
          | .ok dns =>
            let e1 := { e with DNSName := dns }
            match findLoadBalancerByLoadBalancerName (env.describeByName lbName) lbName with
            | .error err => { calls := [c], task := e1, err := some (errMsg err) }
            | .ok none =>
              { calls := [c], task := e1,
                err := some ("Unable to find newly created ELB " ++ lbName) }
            | .ok (some lb) =>
              let e2 := { e1 with HostedZoneId := some lb.canonicalHostedZoneNameID }
              match seqPhase (tagsPhase env e2 lbName)
                  (fun _ => seqPhase (healthPhase env e2 changes lbName)
                    (fun _ => attrsPhase env lbName)) with
              | (cs, r) => { calls := c :: cs, task := e2, err := r }
    | some av =>
      let lbName := valueOf av.LoadBalancerName
      match seqPhase (subnetPhase env av e changes lbName)
          (fun _ => seqPhase (sgPhase env e changes lbName)
            (fun _ => seqPhase (listenerPhase env changes lbName)
              (fun _ => seqPhase (tagsPhase env e lbName)
                (fun _ => seqPhase (healthPhase env e changes lbName)
                  (fun _ => attrsPhase env lbName))))) with
      | (cs, r) => { calls := cs, task := e, err := r }

/-- `terraformLoadBalancerListener` (lines 642–648). -/
structure TFListener where
  instancePort : Int
  instanceProtocol : String
  lbPort : Int
  lbProtocol : String
  sslCertificateID : Option String
deriving DecidableEq

/-- `terraformLoadBalancerHealthCheck` (lines 650–656). -/
structure TFHealthCheck where
  target : Option String
  healthyThreshold : Option Int
  unhealthyThreshold : Option Int
  interval : Option Int
  timeout : Option Int
deriving DecidableEq

/-- `terraformLoadBalancerAccessLog` (declared in a sibling file not under
`src/`; fields from the copy at lines 722–729). -/
structure TFAccessLog where
  emitInterval : Option Int
  enabled : Option Bool
  s3BucketName : Option String
  s3BucketPfx : Option String
deriving DecidableEq

/-- `terraformLoadBalancer` (lines 622–640). -/
structure TFLoadBalancer where
  loadBalancerName : Option String
  listener : List TFListener
  securityGroups : List String
  subnets : List String
  internal : Option Bool
  healthCheck : Option TFHealthCheck
  accessLog : Option TFAccessLog
  connectionDraining : Option Bool
  connectionDrainingTimeout : Option Int
  crossZoneLoadBalancing : Option Bool
  idleTimeout : Option Int
  tags : List (String × String)
deriving DecidableEq

/-- Modelled from the spec: `Subnet.TerraformLink` lives in a file not under
`src/`; the spec says a reference takes the form kind.name.attribute with
`id` the default attribute. -/
def Subnet.terraformLink (s : Subnet) : String :=
  "aws_subnet." ++ valueOf s.Name ++ ".id"

/-- Modelled from the spec: `SecurityGroup.TerraformLink` lives in a file
not under `src/`. -/
def SecurityGroup.terraformLink (g : SecurityGroup) : String :=
  "aws_security_group." ++ valueOf g.Name ++ ".id"

/-- Modelled from the spec: `terraformWriter.SortLiterals` (not under `src/`)
sorts a literal list into the stable order the determinism invariant
requires. -/
def sortLiterals (ls : List String) : List String := sortStrings ls

/-- Merging `cloud.BuildTags(e.Name)` with `e.Tags` (lines 744–748): desired
tags override the built ones. -/
def upsertTags (base overrides : List (String × String)) :
    List (String × String) :=
  overrides.foldl (fun acc t => listInsert acc t.1 t.2) base

/-- The listener loop of `RenderTerraform` (lines 687–710):
`strconv.ParseInt(port, 10, 64)` then the SSL/TCP split. -/
def tfListenersOf : List (String × ClassicLoadBalancerListener) →
    Option (List TFListener)
  | [] => some []
  | (port, l) :: rest =>
    match parseIntBits 64 port with
    | none => none
    | some p =>
      (tfListenersOf rest).map (fun ls =>
        (if l.SSLCertificateID != "" then
          { instancePort := l.InstancePort, instanceProtocol := "SSL",
            lbPort := p, lbProtocol := "SSL",
            sslCertificateID := some l.SSLCertificateID }
        else
          { instancePort := l.InstancePort, instanceProtocol := "TCP",
            lbPort := p, lbProtocol := "TCP",
            sslCertificateID := none } : TFListener) :: ls)

/-- `cloud.BuildTags` is external; the environment supplies it. -/
structure TFEnv where
  buildTags : Option String → List (String × String)

/-- `RenderTerraform` (lines 658–751): shared tasks emit nothing; otherwise
the `aws_elb` resource block handed to `RenderResource` is returned as a
`(kind, name, resource)` triple.  Line 750 dereferences `*e.Name` (a Go
panic when unset, embedded as an error). -/
def RenderTerraform (env : TFEnv) (a : Option ClassicLoadBalancer)
    (e changes : ClassicLoadBalancer) :
    Except String (Option (String × String × TFLoadBalancer)) :=
  if valueOfB e.Shared then .ok none
  else
    match e.LoadBalancerName with
    | none => .error "Required field LoadBalancerName"
    | some _ =>
      match tfListenersOf e.Listeners with
      | none => .error "error parsing load balancer listener port"
      | some listeners =>
        match e.Name with
        | none => .error "panic: runtime error: invalid memory address or nil pointer dereference"
        | some name =>
          .ok (some ("aws_elb", name,
            { loadBalancerName := e.LoadBalancerName
              listener := listeners
              securityGroups :=
                sortLiterals (e.SecurityGroups.map SecurityGroup.terraformLink)
              subnets := sortLiterals (e.Subnets.map Subnet.terraformLink)
              internal := if valueOf e.Scheme == "internal" then some true else none
              healthCheck := e.HealthCheck.map (fun hc =>
                { target := hc.Target, healthyThreshold := hc.HealthyThreshold,
                  unhealthyThreshold := hc.UnhealthyThreshold,
                  interval := hc.Interval, timeout := hc.Timeout })
              accessLog :=
                match e.AccessLog with
                | some al =>
                  if valueOfB al.Enabled then
                    some { emitInterval := al.EmitInterval, enabled := al.Enabled,
                           s3BucketName := al.S3BucketName,
                           s3BucketPfx := al.S3BucketPfx }
                  else none
                | none => none
              connectionDraining :=
                match e.ConnectionDraining with
                | some cd => cd.Enabled
                | none => none
              connectionDrainingTimeout :=
                match e.ConnectionDraining with
                | some cd => cd.Timeout
                | none => none
              crossZoneLoadBalancing :=
                match e.CrossZoneLoadBalancing with
                | some cz => cz.Enabled
                | none => none
              idleTimeout :=
                match e.ConnectionSettings with
                | some cs2 => cs2.IdleTimeout
                | none => none
              tags := upsertTags (env.buildTags e.Name) e.Tags }))

/-! ### Claims about Normalize, CheckChanges, ShouldCreate -/

instance : IsTotal Subnet subnetIdRel :=
  ⟨fun a b => lexLE_total (valueOf a.ID).data (valueOf b.ID).data⟩

instance : IsTrans Subnet subnetIdRel :=
  ⟨fun a b c h1 h2 =>
    lexLE_trans (valueOf a.ID).data (valueOf b.ID).data (valueOf c.ID).data h1 h2⟩

instance : IsTotal SecurityGroup sgIdRel :=
  ⟨fun a b => lexLE_total (valueOf a.ID).data (valueOf b.ID).data⟩

instance : IsTrans SecurityGroup sgIdRel :=
  ⟨fun a b c h1 h2 =>
    lexLE_trans (valueOf a.ID).data (valueOf b.ID).data (valueOf c.ID).data h1 h2⟩

/-- Claim C9: `Normalize` is idempotent, and the `[sgB, sgA]` scenario is
sorted to `[sgA, sgB]` by the first call and left unchanged by a second. -/
theorem Normalize_idempotent :
    (∀ e, Normalize (Normalize e) = Normalize e)
    ∧ Normalize { emptyCLB with SecurityGroups :=
        [ { Name := none, ID := some "sgB" }, { Name := none, ID := some "sgA" } ] }
      = { emptyCLB with SecurityGroups :=
        [ { Name := none, ID := some "sgA" }, { Name := none, ID := some "sgB" } ] }
    ∧ Normalize { emptyCLB with SecurityGroups :=
        [ { Name := none, ID := some "sgA" }, { Name := none, ID := some "sgB" } ] }
      = { emptyCLB with SecurityGroups :=
        [ { Name := none, ID := some "sgA" }, { Name := none, ID := some "sgB" } ] } := by
  refine ⟨fun e => ?_, by decide, by decide⟩
  have hs : ∀ l : List Subnet,
      (l.insertionSort subnetIdRel).insertionSort subnetIdRel
        = l.insertionSort subnetIdRel :=
    fun l => List.Sorted.insertionSort_eq (List.sorted_insertionSort _ l)
  have hg : ∀ l : List SecurityGroup,
      (l.insertionSort sgIdRel).insertionSort sgIdRel = l.insertionSort sgIdRel :=
    fun l => List.Sorted.insertionSort_eq (List.sorted_insertionSort _ l)
  simp [Normalize, hs, hg]

/-- Claim C10: whenever the actual snapshot is present (an update),
`CheckChanges` returns nil regardless of the desired state and the changes
record — required-field validation only applies on first creation. -/
theorem CheckChanges_update_accepts (av e changes : ClassicLoadBalancer) :
    CheckChanges (some av) e changes = none := rfl

/-- Claim C5 counterexample: a shared task with no optional feature blocks
and no Name satisfies none of the claim's error conditions, yet
`CheckChanges` on first creation rejects it with `RequiredField("Name")` —
so "otherwise it returns nil" is false as stated. -/
theorem CheckChanges_name_counterexample :
    CheckChanges none { emptyCLB with Shared := some true } emptyCLB = some "Name"
    ∧ ({ emptyCLB with Shared := some true } : ClassicLoadBalancer).Shared = some true
    ∧ ({ emptyCLB with Shared := some true } : ClassicLoadBalancer).AccessLog = none
    ∧ ({ emptyCLB with Shared := some true } : ClassicLoadBalancer).ConnectionDraining = none
    ∧ ({ emptyCLB with Shared := some true } : ClassicLoadBalancer).CrossZoneLoadBalancing
      = none := by
  refine ⟨by decide, by decide, by decide, by decide, by decide⟩

/-- Claim C5 amended: on first creation `CheckChanges` returns nil iff the
Name field is set (the clause the original claim omitted), non-shared tasks
carry security-group and subnet references, and every present optional
feature block has its required sub-fields (an access log must state Enabled,
and an enabled one must name its S3 bucket; connection draining and
cross-zone must state Enabled); the missing field is reported by name, e.g.
an unset Name yields `RequiredField("Name")`.  The function only reads its
arguments. -/
theorem checkChangesCrossZone_none_iff (e : ClassicLoadBalancer) :
    CheckChanges.checkChangesCrossZone e = none ↔
      (∀ cz, e.CrossZoneLoadBalancing = some cz → cz.Enabled ≠ none) := by
  unfold CheckChanges.checkChangesCrossZone
  rcases h : e.CrossZoneLoadBalancing with _ | cz
  · simp
  · by_cases h1 : cz.Enabled = none
    · simp [h1]
    · have h1b : cz.Enabled.isNone = false := by
        cases hx : cz.Enabled
        · exact absurd rfl (hx ▸ h1)
        · rfl
      simp [h1b, h1]

theorem checkChangesTail_none_iff (e : ClassicLoadBalancer) :
    CheckChanges.checkChangesTail e = none ↔
      ((∀ cd, e.ConnectionDraining = some cd → cd.Enabled ≠ none)
        ∧ (∀ cz, e.CrossZoneLoadBalancing = some cz → cz.Enabled ≠ none)) := by
  unfold CheckChanges.checkChangesTail
  rcases h : e.ConnectionDraining with _ | cd
  · simp [checkChangesCrossZone_none_iff]
  · by_cases h1 : cd.Enabled = none
    · simp [h1]
    · have h1b : cd.Enabled.isNone = false := by
        cases hx : cd.Enabled
        · exact absurd rfl (hx ▸ h1)
        · rfl
      simp [h1b, h1, checkChangesCrossZone_none_iff]

theorem checkChangesAccessLog_none_iff (e : ClassicLoadBalancer) :
    CheckChanges.checkChangesAccessLog e = none ↔
      ((∀ al, e.AccessLog = some al →
          al.Enabled ≠ none ∧ (valueOfB al.Enabled = true → al.S3BucketName ≠ none))
        ∧ (∀ cd, e.ConnectionDraining = some cd → cd.Enabled ≠ none)
        ∧ (∀ cz, e.CrossZoneLoadBalancing = some cz → cz.Enabled ≠ none)) := by
  unfold CheckChanges.checkChangesAccessLog
  rcases h : e.AccessLog with _ | al
  · simp [checkChangesTail_none_iff]
  · by_cases h1 : al.Enabled = none
    · have h1b : al.Enabled.isNone = true := by rw [h1]; rfl
      simp [h1b, h1]
    · have h1b : al.Enabled.isNone = false := by
        cases hx : al.Enabled
        · exact absurd rfl (hx ▸ h1)
        · rfl
      by_cases h2 : valueOfB al.Enabled = true ∧ al.S3BucketName = none
      · have h2b : (valueOfB al.Enabled && al.S3BucketName.isNone) = true := by
          rw [h2.1, h2.2]
          rfl
        simp [h1b, h2b, h2.1, h2.2]
      · have hP : valueOfB al.Enabled = true → al.S3BucketName ≠ none :=
          fun hv hx => h2 ⟨hv, hx⟩
        have h2b : (valueOfB al.Enabled && al.S3BucketName.isNone) = false := by
          by_cases hv : valueOfB al.Enabled = true
          · have hs : al.S3BucketName.isNone = false := by
              cases hx : al.S3BucketName
              · exact absurd rfl (hx ▸ hP hv)
              · rfl
            rw [hv, hs]
            rfl
          · have hv2 : valueOfB al.Enabled = false := by
              cases hx : valueOfB al.Enabled
              · rfl
              · exact absurd rfl (hx ▸ hv)
            rw [hv2]
            rfl
        simp only [h1b, h2b, Bool.false_eq_true, if_false,
          checkChangesTail_none_iff, h, Option.some.injEq]
        constructor
        · rintro ⟨pc, pz⟩
          exact ⟨fun al2 h2eq => h2eq ▸ ⟨h1, hP⟩, pc, pz⟩
        · rintro ⟨_, pc, pz⟩
          exact ⟨pc, pz⟩

/-- When the Name, security-group and subnet gates pass, first-creation
validation is exactly the optional-feature-block validation. -/
theorem CheckChanges_pass (e changes : ClassicLoadBalancer)
    (hname : valueOf e.Name ≠ "")
    (hok : valueOfB e.Shared = true ∨ (e.SecurityGroups ≠ [] ∧ e.Subnets ≠ [])) :
    CheckChanges none e changes = CheckChanges.checkChangesAccessLog e := by
  unfold CheckChanges
  have h1 : (valueOf e.Name == "") = false := by simp [hname]
  have h2 : (!valueOfB e.Shared && e.SecurityGroups.isEmpty) = false := by
    rcases hok with h | h
    · rw [h]
      rfl
    · have hg : e.SecurityGroups.isEmpty = false := by simp [h.1]
      rw [hg, Bool.and_false]
  have h3 : (!valueOfB e.Shared && e.Subnets.isEmpty) = false := by
    rcases hok with h | h
    · rw [h]
      rfl
    · have hn : e.Subnets.isEmpty = false := by simp [h.2]
      rw [hn, Bool.and_false]
  simp [h1, h2, h3]

/-- Claim C5 amended: on first creation `CheckChanges` returns nil iff the
Name field is set (the clause the original claim omitted), non-shared tasks
carry security-group and subnet references, and every present optional
feature block has its required sub-fields (an access log must state Enabled
and, when enabled, its S3 bucket; connection draining and cross-zone must
state Enabled); an unset Name is reported as `RequiredField("Name")`.  The
function only reads its arguments. -/
theorem CheckChanges_create_characterisation :
    (∀ e changes, CheckChanges none e changes = none ↔
      (valueOf e.Name ≠ ""
        ∧ (valueOfB e.Shared = true ∨ (e.SecurityGroups ≠ [] ∧ e.Subnets ≠ []))
        ∧ (∀ al, e.AccessLog = some al →
            al.Enabled ≠ none
              ∧ (valueOfB al.Enabled = true → al.S3BucketName ≠ none))
        ∧ (∀ cd, e.ConnectionDraining = some cd → cd.Enabled ≠ none)
        ∧ (∀ cz, e.CrossZoneLoadBalancing = some cz → cz.Enabled ≠ none)))
    ∧ (∀ e changes, valueOf e.Name = "" →
        CheckChanges none e changes = some "Name") := by
  have hname_case : ∀ e changes, valueOf e.Name = "" →
      CheckChanges none e changes = some "Name" := by
    intro e changes h
    unfold CheckChanges
    simp [h]
  have hsg_case : ∀ e changes, valueOf e.Name ≠ "" → valueOfB e.Shared = false →
      e.SecurityGroups = [] → CheckChanges none e changes = some "SecurityGroups" := by
    intro e changes h hs hg
    unfold CheckChanges
    have h1 : (valueOf e.Name == "") = false := by simp [h]
    simp [h1, hs, hg]
  have hsn_case : ∀ e changes, valueOf e.Name ≠ "" → valueOfB e.Shared = false →
      e.SecurityGroups ≠ [] → e.Subnets = [] →
      CheckChanges none e changes = some "Subnets" := by
    intro e changes h hs hg hn
    unfold CheckChanges
    have h1 : (valueOf e.Name == "") = false := by simp [h]
    have h2 : e.SecurityGroups.isEmpty = false := by simp [hg]
    simp [h1, hs, h2, hn]
  refine ⟨?_, hname_case⟩
  intro e changes
  constructor
  · intro h
    have p1 : valueOf e.Name ≠ "" := by
      intro hx
      rw [hname_case e changes hx] at h
      exact absurd h (by simp)
    have p2 : valueOfB e.Shared = true ∨ (e.SecurityGroups ≠ [] ∧ e.Subnets ≠ []) := by
      by_cases hs : valueOfB e.Shared = true
      · exact Or.inl hs
      · have hs2 : valueOfB e.Shared = false := by
          cases hx : valueOfB e.Shared
          · rfl
          · exact absurd rfl (hx ▸ hs)
        refine Or.inr ⟨fun hg => ?_, fun hn => ?_⟩
        · rw [hsg_case e changes p1 hs2 hg] at h
          exact absurd h (by simp)
        · by_cases hg : e.SecurityGroups = []
          · rw [hsg_case e changes p1 hs2 hg] at h
            exact absurd h (by simp)
          · rw [hsn_case e changes p1 hs2 hg hn] at h
            exact absurd h (by simp)
    rw [CheckChanges_pass e changes p1 p2] at h
    have h4 := (checkChangesAccessLog_none_iff e).1 h
    exact ⟨p1, p2, h4.1, h4.2.1, h4.2.2⟩
  · rintro ⟨p1, p2, pa, pc, pz⟩
    rw [CheckChanges_pass e changes p1 p2]
    exact (checkChangesAccessLog_none_iff e).2 ⟨pa, pc, pz⟩

/-- Witness for C5 (amended): the all-unset task has an empty Name and is
rejected with exactly `RequiredField("Name")`. -/
theorem CheckChanges_create_witness :
    valueOf (emptyCLB.Name) = ""
    ∧ CheckChanges none emptyCLB emptyCLB = some "Name" :=
  ⟨by decide, CheckChanges_create_characterisation.2 emptyCLB emptyCLB (by decide)⟩

/-! ### Claim C6: discovery lookups -/

/-- Claim C6 counterexample: a provider error carrying the
`LoadBalancerNotFound` code is not mapped to the absent result by the
by-name lookup.  `describeLoadBalancers` wraps every provider error with
`fmt.Errorf("error listing ELBs: %w", err)` first, and the
`err.(awserr.Error)` type assertion (line 134) fails on the wrapper, so the
lookup propagates an error where the claim requires `(nil, nil)`. -/
theorem findByName_notfound_counterexample :
    findLoadBalancerByLoadBalancerName
        (.error (.aws "LoadBalancerNotFound" "no such load balancer")) "api-lb"
      ≠ .ok none := by
  decide

/-- Claim C6 amended: for both discovery lookups (by load-balancer name and
by DNS alias), zero remote matches yield the absent result with no error,
exactly one match yields that match, and more than one match yields an
ambiguous-resource error; provider errors — including not-found-coded ones —
are propagated as wrapped list errors (the by-name not-found branch tests
the unwrapped error type, which the prior wrapping prevents, and the alias
path has no such branch at all). -/
theorem findLoadBalancer_discovery :
    (∀ lbs name,
      ((lbs.filter (fun lb => lb.loadBalancerName == name)) = [] →
        findLoadBalancerByLoadBalancerName (.ok lbs) name = .ok none)
      ∧ (∀ d, (lbs.filter (fun lb => lb.loadBalancerName == name)) = [d] →
        findLoadBalancerByLoadBalancerName (.ok lbs) name = .ok (some d))
      ∧ (1 < (lbs.filter (fun lb => lb.loadBalancerName == name)).length →
        findLoadBalancerByLoadBalancerName (.ok lbs) name
          = .error (.std ("Found multiple ELBs with name " ++ name))))
    ∧ (∀ e name, findLoadBalancerByLoadBalancerName (.error e) name
        = .error (.std ("error listing ELBs: "
            ++ ("error listing ELBs: " ++ errMsg e))))
    ∧ (∀ lbs tgt, trimDotSuffix (valueOf tgt.dnsName) ≠ "" →
      ((lbs.filter (aliasFilter (valueOf tgt.hostedZoneId)
          (trimDotSuffix (valueOf tgt.dnsName)))) = [] →
        findLoadBalancerByAlias (.ok lbs) tgt = .ok none)
      ∧ (∀ d, (lbs.filter (aliasFilter (valueOf tgt.hostedZoneId)
          (trimDotSuffix (valueOf tgt.dnsName)))) = [d] →
        findLoadBalancerByAlias (.ok lbs) tgt = .ok (some d))
      ∧ (1 < (lbs.filter (aliasFilter (valueOf tgt.hostedZoneId)
          (trimDotSuffix (valueOf tgt.dnsName)))).length →
        findLoadBalancerByAlias (.ok lbs) tgt
          = .error (.std ("Found multiple ELBs with DNSName "
              ++ valueOf tgt.dnsName))))
    ∧ (∀ e tgt, trimDotSuffix (valueOf tgt.dnsName) ≠ "" →
        findLoadBalancerByAlias (.error e) tgt
          = .error (.std ("error listing ELBs: "
              ++ ("error listing ELBs: " ++ errMsg e)))) := by
  refine ⟨fun lbs name => ⟨?_, ?_, ?_⟩, fun e name => ?_,
    fun lbs tgt hdns => ⟨?_, ?_, ?_⟩, fun e tgt hdns => ?_⟩
  · intro hf
    simp [findLoadBalancerByLoadBalancerName, describeLoadBalancers, hf]
  · intro d hf
    simp [findLoadBalancerByLoadBalancerName, describeLoadBalancers, hf]
  · intro hlen
    have h0 : ((lbs.filter (fun lb => lb.loadBalancerName == name)).length == 0)
        = false := by
      simp only [beq_eq_false_iff_ne]
      omega
    have h1 : (lbs.filter (fun lb => lb.loadBalancerName == name)).length ≠ 1 := by
      omega
    simp [findLoadBalancerByLoadBalancerName, describeLoadBalancers, h0, h1]
  · simp [findLoadBalancerByLoadBalancerName, describeLoadBalancers, errMsg]
  · intro hf
    have hne : (trimDotSuffix (valueOf tgt.dnsName) == "") = false := by
      simp [hdns]
    simp [findLoadBalancerByAlias, describeLoadBalancers, hne, hf]
  · intro d hf
    have hne : (trimDotSuffix (valueOf tgt.dnsName) == "") = false := by
      simp [hdns]
    simp [findLoadBalancerByAlias, describeLoadBalancers, hne, hf]
  · intro hlen
    have hne : (trimDotSuffix (valueOf tgt.dnsName) == "") = false := by
      simp [hdns]
    have h0 : ((lbs.filter (aliasFilter (valueOf tgt.hostedZoneId)
        (trimDotSuffix (valueOf tgt.dnsName)))).length == 0) = false := by
      simp only [beq_eq_false_iff_ne]
      omega
    have h1 : (lbs.filter (aliasFilter (valueOf tgt.hostedZoneId)
        (trimDotSuffix (valueOf tgt.dnsName)))).length ≠ 1 := by
      omega
    simp [findLoadBalancerByAlias, describeLoadBalancers, hne, h0, h1]
  · have hne : (trimDotSuffix (valueOf tgt.dnsName) == "") = false := by
      simp [hdns]
    simp [findLoadBalancerByAlias, describeLoadBalancers, hne, errMsg]

/-- A one-element remote population for the discovery witness. -/
def c6lb : LBDesc :=
  { loadBalancerName := "api-lb", dnsName := "d", canonicalHostedZoneNameID := "Z",
    scheme := "internet-facing", subnets := [], securityGroups := [],
    listenerDescriptions := [] }

/-- Witness for C6 (amended): a single exact-name match is returned. -/
theorem findLoadBalancer_discovery_witness :
    ([c6lb].filter (fun lb => lb.loadBalancerName == "api-lb")) = [c6lb]
    ∧ findLoadBalancerByLoadBalancerName (.ok [c6lb]) "api-lb" = .ok (some c6lb) :=
  ⟨by decide, (findLoadBalancer_discovery.1 [c6lb] "api-lb").2.1 c6lb (by decide)⟩

/-! ### Claim C7: Find's backfill of the desired task -/

/-- The frame/backfill relation of claim C7: after a successful discovery of
`lb`, the updated desired task agrees with the original on every field,
except that DNSName and HostedZoneId are backfilled exactly when they were
unset, and LoadBalancerName always carries the discovered name. -/
def FindFrameProp (e e2 : ClassicLoadBalancer) (lb : LBDesc) : Prop :=
  e2.DNSName = (if e.DNSName.isNone then some lb.dnsName else e.DNSName)
  ∧ e2.HostedZoneId =
      (if e.HostedZoneId.isNone then some lb.canonicalHostedZoneNameID
       else e.HostedZoneId)
  ∧ e2.LoadBalancerName = some lb.loadBalancerName
  ∧ e2.Name = e.Name
  ∧ e2.Subnets = e.Subnets
  ∧ e2.SecurityGroups = e.SecurityGroups
  ∧ e2.Listeners = e.Listeners
  ∧ e2.Scheme = e.Scheme
  ∧ e2.HealthCheck = e.HealthCheck
  ∧ e2.AccessLog = e.AccessLog
  ∧ e2.ConnectionDraining = e.ConnectionDraining
  ∧ e2.ConnectionSettings = e.ConnectionSettings
  ∧ e2.CrossZoneLoadBalancing = e.CrossZoneLoadBalancing
  ∧ e2.SSLCertificateID = e.SSLCertificateID
  ∧ e2.Tags = e.Tags
  ∧ e2.Shared = e.Shared
  ∧ e2.WellKnownServices = e.WellKnownServices

/-- Claim C7 amended: when discovery finds a load balancer and `Find`
succeeds, the returned desired task has DNSName and HostedZoneId backfilled
exactly when they were unset, while LoadBalancerName is always set to the
discovered actual name — even when it was already set to something else
(lines 333–339); every other desired field is unchanged.  When discovery
finds nothing, `Find` returns the absent actual and the desired task
untouched.  (A successful `Find` implies the desired LoadBalancerName was
set: with it unset the tag-map indexing at line 247 dereferences nil.) -/
theorem Find_updates_desired :
    (∀ env e lb res, env.elbByNameTag = Except.ok (some lb) →
      Find env e = Except.ok res → FindFrameProp e res.2 lb)
    ∧ (∀ env e res, env.elbByNameTag = Except.ok none →
      Find env e = Except.ok res → res = (none, e)) := by
  constructor
  · intro env e lb res helb hres
    unfold Find at hres
    rw [helb] at hres
    rcases htags : env.describeTags with _ | tagMap <;> rw [htags] at hres
    · exact absurd hres (by simp)
    rcases hlbn : e.LoadBalancerName with _ | eLBName <;> rw [hlbn] at hres
    · exact absurd hres (by simp)
    rcases hhc : env.healthCheck with _ | hc <;> rw [hhc] at hres
    · exact absurd hres (by simp)
    rcases hat : env.lbAttributes with _ | attrs <;> rw [hat] at hres
    · exact absurd hres (by simp)
    simp only [Except.ok.injEq] at hres
    subst hres
    rcases attrs with _ | la
    all_goals
      simp only [FindFrameProp]
      split_ifs <;> simp_all [valueOf]
  · intro env e res helb hres
    unfold Find at hres
    rw [helb] at hres
    simp only [Except.ok.injEq] at hres
    exact hres.symm

/-- A discovered load balancer whose internal name differs from the desired
task's. -/
def c7lb : LBDesc :=
  { loadBalancerName := "b", dnsName := "lb.example.amazonaws.com",
    canonicalHostedZoneNameID := "Z2", scheme := "internet-facing",
    subnets := [], securityGroups := [], listenerDescriptions := [] }

def c7env : FindEnv :=
  { elbByNameTag := .ok (some c7lb), describeTags := .ok [],
    healthCheck := .ok none, lbAttributes := .ok none }

/-- A desired task whose LoadBalancerName is already set (to "a"). -/
def c7task : ClassicLoadBalancer :=
  { emptyCLB with Name := some "n", LoadBalancerName := some "a" }

/-- Claim C7 counterexample: the desired task's identity field
LoadBalancerName was already set (to "a"), yet `Find` overwrites it with the
discovered name "b" (lines 333–339) — so "identity fields that were already
set ... are left unchanged by Find" is false. -/
theorem Find_overwrite_counterexample :
    (Find c7env c7task).map (fun r => r.2.LoadBalancerName) = .ok (some "b")
    ∧ c7task.LoadBalancerName = some "a" := by
  constructor
  · decide
  · decide

/-- A desired task with DNSName and HostedZoneId unset and the matching
LoadBalancerName. -/
def c7task2 : ClassicLoadBalancer :=
  { emptyCLB with Name := some "n", LoadBalancerName := some "b" }

def c7res : Option ClassicLoadBalancer × ClassicLoadBalancer :=
  ((Find c7env c7task2).toOption).getD (none, c7task2)

/-- Witness for C7 (amended): at the concrete environment, `Find` succeeds
and the frame/backfill relation holds. -/
theorem Find_updates_desired_witness :
    c7env.elbByNameTag = Except.ok (some c7lb)
    ∧ Find c7env c7task2 = Except.ok c7res
    ∧ FindFrameProp c7task2 c7res.2 c7lb :=
  ⟨rfl, by decide, Find_updates_desired.1 c7env c7task2 c7lb c7res rfl (by decide)⟩

/-! ### Claim C8: shared tasks are read-only -/

/-- Claim C8: for every task marked shared, `ShouldCreate` answers false and
both render paths return nil immediately — `RenderAWS` issues no mutating
cloud call and leaves the task untouched, `RenderTerraform` emits no
resource block; a task not marked shared gets `ShouldCreate = true`. -/
theorem shared_task_noops :
    (∀ a e changes env tenv, valueOfB e.Shared = true →
      ShouldCreate a e changes = false
      ∧ RenderAWS env a e changes = { calls := [], task := e, err := none }
      ∧ RenderTerraform tenv a e changes = .ok none)
    ∧ (∀ a e changes, valueOfB e.Shared = false →
      ShouldCreate a e changes = true) := by
  constructor
  · intro a e changes env tenv h
    refine ⟨?_, ?_, ?_⟩
    · simp [ShouldCreate, h]
    · unfold RenderAWS
      rw [h]
      rfl
    · unfold RenderTerraform
      rw [h]
      rfl
  · intro a e changes h
    simp [ShouldCreate, h]

def c8env : AWSEnv :=
  { createResult := .ok none, describeByName := fun _ => .ok [],
    callErr := fun _ => none }

def c8tfEnv : TFEnv := { buildTags := fun _ => [] }

def c8task : ClassicLoadBalancer := { emptyCLB with Shared := some true }

/-- Witness for C8: a concrete shared task with no remote match. -/
theorem shared_task_noops_witness :
    valueOfB c8task.Shared = true
    ∧ (ShouldCreate none c8task emptyCLB = false
      ∧ RenderAWS c8env none c8task emptyCLB
        = { calls := [], task := c8task, err := none }
      ∧ RenderTerraform c8tfEnv none c8task emptyCLB = .ok none) :=
  ⟨by decide, shared_task_noops.1 none c8task emptyCLB c8env c8tfEnv (by decide)⟩

theorem memB_eq_false_iff (s : String) (l : List String) : memB s l = false ↔ ¬ s ∈ l := by
  constructor
  · intro h hmem
    rw [(memB_iff l).2 hmem] at h
    exact Bool.noConfusion h
  · intro h
    cases hm : memB s l
    · rfl
    · exact absurd ((memB_iff l).1 hm) h

theorem subnetDetachSet_mem (av e : ClassicLoadBalancer) :
    ∀ s, s ∈ subnetDetachSet av e ↔
      (s ∈ av.Subnets.map (fun x => valueOf x.ID)
        ∧ ¬ s ∈ e.Subnets.map (fun x => valueOf x.ID)) := by
  intro s
  simp [subnetDetachSet, GetUniqueStrings, List.mem_filter, memB_eq_false_iff]

theorem subnetAttachSet_mem (av e : ClassicLoadBalancer) :
    ∀ s, s ∈ subnetAttachSet av e ↔
      (s ∈ e.Subnets.map (fun x => valueOf x.ID)
        ∧ ¬ s ∈ av.Subnets.map (fun x => valueOf x.ID)) := by
  intro s
  simp [subnetAttachSet, GetUniqueStrings, List.mem_filter, memB_eq_false_iff]

theorem mem_seqPhase (c : CloudCall) (p : List CloudCall × Option String)
    (q : Unit → List CloudCall × Option String) :
    c ∈ (seqPhase p q).1 ↔ c ∈ p.1 ∨ (p.2 = none ∧ c ∈ (q ()).1) := by
  unfold seqPhase
  rcases h : p.2 with _ | m <;> simp [h]

theorem renderAWS_update_calls (env : AWSEnv) (av e changes : ClassicLoadBalancer)
    (hsh : valueOfB e.Shared = false) :
    (RenderAWS env (some av) e changes).calls
      = (seqPhase (subnetPhase env av e changes (valueOf av.LoadBalancerName))
          (fun _ => seqPhase (sgPhase env e changes (valueOf av.LoadBalancerName))
            (fun _ => seqPhase (listenerPhase env changes (valueOf av.LoadBalancerName))
              (fun _ => seqPhase (tagsPhase env e (valueOf av.LoadBalancerName))
                (fun _ => seqPhase (healthPhase env e changes (valueOf av.LoadBalancerName))
                  (fun _ => attrsPhase env (valueOf av.LoadBalancerName))))))).1 := by
  unfold RenderAWS
  rw [hsh]
  rfl

theorem attachPhase_shape (env : AWSEnv) (n : String) (xs : List String) :
    ∀ c ∈ (attachPhase env n xs).1,
      c = CloudCall.attachToSubnets n xs ∧ xs ≠ [] := by
  intro c hc
  unfold attachPhase at hc
  by_cases h : xs.isEmpty = true
  · rw [if_pos h] at hc
    simp at hc
  · rw [if_neg h] at hc
    simp at hc
    refine ⟨hc, ?_⟩
    intro hnil
    rw [hnil] at h
    exact h rfl

theorem attachPhase_mem (env : AWSEnv) (n : String) (xs : List String)
    (h : xs ≠ []) :
    CloudCall.attachToSubnets n xs ∈ (attachPhase env n xs).1 := by
  unfold attachPhase
  rw [if_neg (by simp [h])]
  simp

theorem subnetPhase_shape (env : AWSEnv) (av e changes : ClassicLoadBalancer)
    (n : String) :
    ∀ c ∈ (subnetPhase env av e changes n).1,
      (c = CloudCall.detachFromSubnets n (subnetDetachSet av e)
        ∧ subnetDetachSet av e ≠ [])
      ∨ (c = CloudCall.attachToSubnets n (subnetAttachSet av e)
        ∧ subnetAttachSet av e ≠ []) := by
  intro c hc
  unfold subnetPhase at hc
  by_cases h1 : changes.Subnets.isEmpty = true
  · rw [if_pos h1] at hc
    simp at hc
  · rw [if_neg h1] at hc
    by_cases h2 : (subnetDetachSet av e).isEmpty = true
    · rw [if_pos h2] at hc
      exact Or.inr (attachPhase_shape env n _ c hc)
    · rw [if_neg h2] at hc
      have hne : subnetDetachSet av e ≠ [] := by
        intro hnil
        rw [hnil] at h2
        exact h2 rfl
      simp only [] at hc
      rcases hcall : env.callErr
          (CloudCall.detachFromSubnets n (subnetDetachSet av e)) with _ | m
      · rw [hcall] at hc
        rcases hap : attachPhase env n (subnetAttachSet av e) with ⟨cs, r⟩
        rw [hap] at hc
        simp at hc
        rcases hc with hc | hc
        · exact Or.inl ⟨hc, hne⟩
        · refine Or.inr (attachPhase_shape env n (subnetAttachSet av e) c ?_)
          rw [hap]
          exact hc
      · rw [hcall] at hc
        simp at hc
        exact Or.inl ⟨hc, hne⟩

theorem subnetPhase_detach_mem (env : AWSEnv) (av e changes : ClassicLoadBalancer)
    (n : String) (h1 : changes.Subnets ≠ []) (h2 : subnetDetachSet av e ≠ []) :
    CloudCall.detachFromSubnets n (subnetDetachSet av e)
      ∈ (subnetPhase env av e changes n).1 := by
  unfold subnetPhase
  rw [if_neg (by simp [h1]), if_neg (by simp [h2])]
  simp only []
  rcases hcall : env.callErr
      (CloudCall.detachFromSubnets n (subnetDetachSet av e)) with _ | m
  · exact List.mem_cons_self _ _
  · simp

theorem subnetPhase_attach_mem (env : AWSEnv) (av e changes : ClassicLoadBalancer)
    (n : String) (h1 : changes.Subnets ≠ []) (h2 : subnetAttachSet av e ≠ [])
    (h3 : subnetDetachSet av e = []
      ∨ env.callErr (CloudCall.detachFromSubnets n (subnetDetachSet av e)) = none) :
    CloudCall.attachToSubnets n (subnetAttachSet av e)
      ∈ (subnetPhase env av e changes n).1 := by
  unfold subnetPhase
  rw [if_neg (by simp [h1])]
  by_cases hd : subnetDetachSet av e = []
  · rw [if_pos (by simp [hd])]
    exact attachPhase_mem env n _ h2
  · rw [if_neg (by simp [hd])]
    simp only []
    rcases h3 with h3 | h3
    · exact absurd h3 hd
    · rw [h3]
      rcases hap : attachPhase env n (subnetAttachSet av e) with ⟨cs, r⟩
      refine List.mem_cons_of_mem _ ?_
      have := attachPhase_mem env n (subnetAttachSet av e) h2
      rw [hap] at this
      exact this

theorem sgPhase_shape (env : AWSEnv) (e changes : ClassicLoadBalancer) (n : String) :
    ∀ c ∈ (sgPhase env e changes n).1,
      c = CloudCall.applySecurityGroups n
        (e.SecurityGroups.map (fun g => valueOf g.ID)) := by
  intro c hc
  unfold sgPhase at hc
  by_cases h : changes.SecurityGroups.isEmpty = true
  · rw [if_pos h] at hc
    simp at hc
  · rw [if_neg h] at hc
    simpa using hc

theorem listenerPhase_shape (env : AWSEnv) (changes : ClassicLoadBalancer)
    (n : String) :
    ∀ c ∈ (listenerPhase env changes n).1,
      c = CloudCall.deleteListeners n [443]
      ∨ ∃ ls, listenersToAWS changes.Listeners = some ls
          ∧ c = CloudCall.createListeners n ls := by
  intro c hc
  unfold listenerPhase at hc
  by_cases h : changes.Listeners.isEmpty = true
  · rw [if_pos h] at hc
    simp at hc
  · rw [if_neg h] at hc
    rcases hfind : findLoadBalancerByLoadBalancerName (env.describeByName n) n
        with err | dopt
    · rw [hfind] at hc
      simp at hc
    · rw [hfind] at hc
      simp only [] at hc
      rcases hls : listenersToAWS changes.Listeners with _ | ls <;> rw [hls] at hc
      · rcases dopt with _ | d <;> simp at hc
        exact Or.inl hc
      · rcases dopt with _ | d <;> simp at hc
        · exact Or.inr ⟨ls, rfl, hc⟩
        · rcases hc with hc | hc
          · exact Or.inl hc
          · exact Or.inr ⟨ls, rfl, hc⟩

theorem listenerPhase_mems (env : AWSEnv) (changes : ClassicLoadBalancer)
    (n : String) (h1 : changes.Listeners ≠ []) (d : LBDesc)
    (hf : findLoadBalancerByLoadBalancerName (env.describeByName n) n
      = .ok (some d)) :
    CloudCall.deleteListeners n [443] ∈ (listenerPhase env changes n).1
    ∧ ∀ ls, listenersToAWS changes.Listeners = some ls →
        CloudCall.createListeners n ls ∈ (listenerPhase env changes n).1 := by
  constructor
  · unfold listenerPhase
    rw [if_neg (by simp [h1]), hf]
    simp only []
    rcases hls : listenersToAWS changes.Listeners with _ | ls <;> simp
  · intro ls hls
    unfold listenerPhase
    rw [if_neg (by simp [h1]), hf]
    simp only []
    rw [hls]
    simp

theorem tagsPhase_shape (env : AWSEnv) (e : ClassicLoadBalancer) (n : String) :
    ∀ c ∈ (tagsPhase env e n).1,
      c = CloudCall.addELBTags n e.Tags ∨ c = CloudCall.removeELBTags n e.Tags := by
  intro c hc
  unfold tagsPhase at hc
  simp only [] at hc
  rcases h : env.callErr (CloudCall.addELBTags n e.Tags) with _ | m <;>
    rw [h] at hc <;> simp at hc <;> tauto

theorem healthPhase_shape (env : AWSEnv) (e changes : ClassicLoadBalancer)
    (n : String) :
    ∀ c ∈ (healthPhase env e changes n).1,
      ∃ k, c = CloudCall.configureHealthCheck n k := by
  intro c hc
  unfold healthPhase at hc
  rcases hh : changes.HealthCheck with _ | h1 <;> rw [hh] at hc
  · simp at hc
  · rcases he : e.HealthCheck with _ | h2 <;> rw [he] at hc
    · simp at hc
    · simp at hc
      exact ⟨h2, hc⟩

theorem attrsPhase_shape (env : AWSEnv) (n : String) :
    ∀ c ∈ (attrsPhase env n).1, c = CloudCall.modifyAttributes n := by
  intro c hc
  simpa [attrsPhase] using hc

theorem renderAWS_update_mem_cases (env : AWSEnv)
    (av e changes : ClassicLoadBalancer) (c : CloudCall)
    (hmem : c ∈ (RenderAWS env (some av) e changes).calls) :
    c ∈ (subnetPhase env av e changes (valueOf av.LoadBalancerName)).1
    ∨ c ∈ (sgPhase env e changes (valueOf av.LoadBalancerName)).1
    ∨ c ∈ (listenerPhase env changes (valueOf av.LoadBalancerName)).1
    ∨ c ∈ (tagsPhase env e (valueOf av.LoadBalancerName)).1
    ∨ c ∈ (healthPhase env e changes (valueOf av.LoadBalancerName)).1
    ∨ c ∈ (attrsPhase env (valueOf av.LoadBalancerName)).1 := by
  by_cases hsh : valueOfB e.Shared = true
  · have hnil : (RenderAWS env (some av) e changes).calls = [] := by
      unfold RenderAWS
      rw [hsh]
      rfl
    rw [hnil] at hmem
    simp at hmem
  · have hsh2 : valueOfB e.Shared = false := by
      cases hx : valueOfB e.Shared
      · rfl
      · exact absurd hx hsh
    rw [renderAWS_update_calls env av e changes hsh2] at hmem
    simp only [mem_seqPhase] at hmem
    rcases hmem with h | ⟨-, h | ⟨-, h | ⟨-, h | ⟨-, h | ⟨-, h⟩⟩⟩⟩⟩ <;> tauto

/-- C3: on an update (actual present), every detach call `RenderAWS` issues
names exactly `subnetDetachSet` (and that set is non-empty), every attach
call names exactly `subnetAttachSet` (non-empty); the detach set is
actual−desired, the attach set is desired−actual, so no subnet present in
both lists is named by either set; and when the changes record flags the
subnet list, a non-empty detach set is detached, and a non-empty attach set
is attached once the detach step did not fail. -/
theorem renderAWS_subnet_delta (env : AWSEnv) (av e changes : ClassicLoadBalancer)
    (n2 : String) (ds : List String) :
    (CloudCall.detachFromSubnets n2 ds ∈ (RenderAWS env (some av) e changes).calls →
      ds = subnetDetachSet av e ∧ ds ≠ [])
    ∧ (CloudCall.attachToSubnets n2 ds ∈ (RenderAWS env (some av) e changes).calls →
      ds = subnetAttachSet av e ∧ ds ≠ [])
    ∧ (∀ s, s ∈ subnetDetachSet av e ↔
        (s ∈ av.Subnets.map (fun x => valueOf x.ID)
          ∧ ¬ s ∈ e.Subnets.map (fun x => valueOf x.ID)))
    ∧ (∀ s, s ∈ subnetAttachSet av e ↔
        (s ∈ e.Subnets.map (fun x => valueOf x.ID)
          ∧ ¬ s ∈ av.Subnets.map (fun x => valueOf x.ID)))
    ∧ (∀ s, s ∈ av.Subnets.map (fun x => valueOf x.ID) →
        s ∈ e.Subnets.map (fun x => valueOf x.ID) →
        ¬ s ∈ subnetDetachSet av e ∧ ¬ s ∈ subnetAttachSet av e)
    ∧ (valueOfB e.Shared = false → changes.Subnets ≠ [] →
        subnetDetachSet av e ≠ [] →
        CloudCall.detachFromSubnets (valueOf av.LoadBalancerName)
            (subnetDetachSet av e)
          ∈ (RenderAWS env (some av) e changes).calls)
    ∧ (valueOfB e.Shared = false → changes.Subnets ≠ [] →
        subnetAttachSet av e ≠ [] →
        (subnetDetachSet av e = []
          ∨ env.callErr (CloudCall.detachFromSubnets (valueOf av.LoadBalancerName)
              (subnetDetachSet av e)) = none) →
        CloudCall.attachToSubnets (valueOf av.LoadBalancerName)
            (subnetAttachSet av e)
          ∈ (RenderAWS env (some av) e changes).calls) := by
  refine ⟨?_, ?_, subnetDetachSet_mem av e, subnetAttachSet_mem av e, ?_, ?_, ?_⟩
  · intro hmem
    rcases renderAWS_update_mem_cases env av e changes _ hmem with h | h | h | h | h | h
    · rcases subnetPhase_shape env av e changes _ _ h with ⟨heq, hne⟩ | ⟨heq, hne⟩
      · simp only [CloudCall.detachFromSubnets.injEq] at heq
        refine ⟨heq.2, ?_⟩
        rw [heq.2]
        exact hne
      · exact absurd heq (by simp)
    · exact absurd (sgPhase_shape env e changes _ _ h) (by simp)
    · rcases listenerPhase_shape env changes _ _ h with heq | ⟨ls, _, heq⟩
      · exact absurd heq (by simp)
      · exact absurd heq (by simp)
    · rcases tagsPhase_shape env e _ _ h with heq | heq <;> exact absurd heq (by simp)
    · rcases healthPhase_shape env e changes _ _ h with ⟨k, heq⟩
      exact absurd heq (by simp)
    · exact absurd (attrsPhase_shape env _ _ h) (by simp)
  · intro hmem
    rcases renderAWS_update_mem_cases env av e changes _ hmem with h | h | h | h | h | h
    · rcases subnetPhase_shape env av e changes _ _ h with ⟨heq, hne⟩ | ⟨heq, hne⟩
      · exact absurd heq (by simp)
      · simp only [CloudCall.attachToSubnets.injEq] at heq
        refine ⟨heq.2, ?_⟩
        rw [heq.2]
        exact hne
    · exact absurd (sgPhase_shape env e changes _ _ h) (by simp)
    · rcases listenerPhase_shape env changes _ _ h with heq | ⟨ls, _, heq⟩
      · exact absurd heq (by simp)
      · exact absurd heq (by simp)
    · rcases tagsPhase_shape env e _ _ h with heq | heq <;> exact absurd heq (by simp)
    · rcases healthPhase_shape env e changes _ _ h with ⟨k, heq⟩
      exact absurd heq (by simp)
    · exact absurd (attrsPhase_shape env _ _ h) (by simp)
  · intro s h1 h2
    exact ⟨fun hm => ((subnetDetachSet_mem av e s).1 hm).2 h2,
           fun hm => ((subnetAttachSet_mem av e s).1 hm).2 h1⟩
  · intro hsh hch hne
    rw [renderAWS_update_calls env av e changes hsh, mem_seqPhase]
    exact Or.inl (subnetPhase_detach_mem env av e changes _ hch hne)
  · intro hsh hch hne h3
    rw [renderAWS_update_calls env av e changes hsh, mem_seqPhase]
    exact Or.inl (subnetPhase_attach_mem env av e changes _ hch hne h3)

def c3av : ClassicLoadBalancer :=
  { emptyCLB with
    LoadBalancerName := some "lb",
    Subnets := [{ Name := some "s1", ID := some "s1" },
                { Name := some "s2", ID := some "s2" }] }

def c3e : ClassicLoadBalancer :=
  { emptyCLB with
    LoadBalancerName := some "lb",
    Subnets := [{ Name := some "s2", ID := some "s2" },
                { Name := some "s3", ID := some "s3" }] }

def c3changes : ClassicLoadBalancer :=
  { emptyCLB with Subnets := [{ Name := some "s3", ID := some "s3" }] }

def c3env : AWSEnv :=
  { createResult := .ok none, describeByName := fun _ => .ok [],
    callErr := fun _ => none }

/-- Witness for C3, the spec's scenario: actual subnets s1,s2 and desired
s2,s3 give detach set exactly s1 and attach set exactly s3, both calls are
issued, and s2 is in neither set. -/
theorem renderAWS_subnet_delta_witness :
    (valueOfB c3e.Shared = false ∧ c3changes.Subnets ≠ []
      ∧ subnetDetachSet c3av c3e = ["s1"] ∧ subnetAttachSet c3av c3e = ["s3"])
    ∧ CloudCall.detachFromSubnets (valueOf c3av.LoadBalancerName)
        (subnetDetachSet c3av c3e)
      ∈ (RenderAWS c3env (some c3av) c3e c3changes).calls
    ∧ CloudCall.attachToSubnets (valueOf c3av.LoadBalancerName)
        (subnetAttachSet c3av c3e)
      ∈ (RenderAWS c3env (some c3av) c3e c3changes).calls :=
  ⟨by decide,
   (renderAWS_subnet_delta c3env c3av c3e c3changes "x" []).2.2.2.2.2.1
     (by decide) (by decide) (by decide),
   (renderAWS_subnet_delta c3env c3av c3e c3changes "x" []).2.2.2.2.2.2
     (by decide) (by decide) (by decide) (Or.inr rfl)⟩

def c4av : ClassicLoadBalancer :=
  { emptyCLB with LoadBalancerName := some "lb" }

def c4desc : LBDesc :=
  { loadBalancerName := "lb", dnsName := "lb.example.com",
    canonicalHostedZoneNameID := "Z1", scheme := "internet-facing",
    subnets := [], securityGroups := [], listenerDescriptions := [] }

def c4env : AWSEnv :=
  { createResult := .ok none, describeByName := fun _ => .ok [c4desc],
    callErr := fun _ => none }

def c4changes : ClassicLoadBalancer :=
  { emptyCLB with
    Listeners := [("80", { InstancePort := 8080, SSLCertificateID := "" })] }

/-- Counterexample for C4: the changes record reports exactly the port-80
listener as changed, yet the rendered trace deletes only the hardcoded port
443 — no delete call ever names port 80 — while the port-80 listener is
recreated, so the changed port is not removed before being recreated. -/
theorem renderAWS_listener_counterexample :
    c4changes.Listeners.map Prod.fst = ["80"]
    ∧ (RenderAWS c4env (some c4av) emptyCLB c4changes).calls
      = [CloudCall.deleteListeners "lb" [443],
         CloudCall.createListeners "lb"
           [{ loadBalancerPort := 80, instancePort := 8080, protocol := "TCP",
              instanceProtocol := "TCP", sslCertificateId := none }],
         CloudCall.addELBTags "lb" [], CloudCall.removeELBTags "lb" [],
         CloudCall.modifyAttributes "lb"]
    ∧ (RenderAWS c4env (some c4av) emptyCLB c4changes).calls.all
        (fun c => match c with
          | CloudCall.deleteListeners _ ps => !ps.contains 80
          | _ => true) = true := by
  refine ⟨by decide, by decide, by decide⟩

/-- C4 (amended): on an update whose changes record lists changed listeners,
`RenderAWS` recreates the changed listeners wholesale — every
`CreateLoadBalancerListeners` call carries exactly the listeners built from
the changes record, and one is issued once the earlier phases succeed and
the requery finds the load balancer — but it does not delete each changed
listener first: every delete call names only the hardcoded port list
`[443]` (lines 556–563). -/
theorem renderAWS_listener_update (env : AWSEnv) (av e changes : ClassicLoadBalancer)
    (n2 : String) :
    (∀ ps, CloudCall.deleteListeners n2 ps ∈ (RenderAWS env (some av) e changes).calls →
      ps = [443])
    ∧ (∀ ls, CloudCall.createListeners n2 ls ∈ (RenderAWS env (some av) e changes).calls →
      listenersToAWS changes.Listeners = some ls)
    ∧ (valueOfB e.Shared = false → changes.Listeners ≠ [] →
      (subnetPhase env av e changes (valueOf av.LoadBalancerName)).2 = none →
      (sgPhase env e changes (valueOf av.LoadBalancerName)).2 = none →
      ∀ d, findLoadBalancerByLoadBalancerName
          (env.describeByName (valueOf av.LoadBalancerName))
          (valueOf av.LoadBalancerName) = .ok (some d) →
        CloudCall.deleteListeners (valueOf av.LoadBalancerName) [443]
          ∈ (RenderAWS env (some av) e changes).calls
        ∧ ∀ ls, listenersToAWS changes.Listeners = some ls →
            CloudCall.createListeners (valueOf av.LoadBalancerName) ls
              ∈ (RenderAWS env (some av) e changes).calls) := by
  refine ⟨?_, ?_, ?_⟩
  · intro ps hmem
    rcases renderAWS_update_mem_cases env av e changes _ hmem with h | h | h | h | h | h
    · rcases subnetPhase_shape env av e changes _ _ h with ⟨heq, _⟩ | ⟨heq, _⟩ <;>
        exact absurd heq (by simp)
    · exact absurd (sgPhase_shape env e changes _ _ h) (by simp)
    · rcases listenerPhase_shape env changes _ _ h with heq | ⟨ls, _, heq⟩
      · simp only [CloudCall.deleteListeners.injEq] at heq
        exact heq.2
      · exact absurd heq (by simp)
    · rcases tagsPhase_shape env e _ _ h with heq | heq <;> exact absurd heq (by simp)
    · rcases healthPhase_shape env e changes _ _ h with ⟨k, heq⟩
      exact absurd heq (by simp)
    · exact absurd (attrsPhase_shape env _ _ h) (by simp)
  · intro ls hmem
    rcases renderAWS_update_mem_cases env av e changes _ hmem with h | h | h | h | h | h
    · rcases subnetPhase_shape env av e changes _ _ h with ⟨heq, _⟩ | ⟨heq, _⟩ <;>
        exact absurd heq (by simp)
    · exact absurd (sgPhase_shape env e changes _ _ h) (by simp)
    · rcases listenerPhase_shape env changes _ _ h with heq | ⟨ls2, hls2, heq⟩
      · exact absurd heq (by simp)
      · simp only [CloudCall.createListeners.injEq] at heq
        rw [hls2, heq.2]
    · rcases tagsPhase_shape env e _ _ h with heq | heq <;> exact absurd heq (by simp)
    · rcases healthPhase_shape env e changes _ _ h with ⟨k, heq⟩
      exact absurd heq (by simp)
    · exact absurd (attrsPhase_shape env _ _ h) (by simp)
  · intro hsh hch hsub hsg d hf
    have hm := listenerPhase_mems env changes (valueOf av.LoadBalancerName) hch d hf
    constructor
    · rw [renderAWS_update_calls env av e changes hsh]
      simp only [mem_seqPhase]
      exact Or.inr ⟨hsub, Or.inr ⟨hsg, Or.inl hm.1⟩⟩
    · intro ls hls
      rw [renderAWS_update_calls env av e changes hsh]
      simp only [mem_seqPhase]
      exact Or.inr ⟨hsub, Or.inr ⟨hsg, Or.inl (hm.2 ls hls)⟩⟩

/-- Witness for C4: the concrete single-changed-listener scenario, where the
earlier phases trivially succeed and the requery finds the load balancer, so
the delete-443 call is issued. -/
theorem renderAWS_listener_update_witness :
    (valueOfB emptyCLB.Shared = false ∧ c4changes.Listeners ≠ []
      ∧ (subnetPhase c4env c4av emptyCLB c4changes (valueOf c4av.LoadBalancerName)).2 = none
      ∧ (sgPhase c4env emptyCLB c4changes (valueOf c4av.LoadBalancerName)).2 = none
      ∧ findLoadBalancerByLoadBalancerName
          (c4env.describeByName (valueOf c4av.LoadBalancerName))
          (valueOf c4av.LoadBalancerName) = .ok (some c4desc))
    ∧ CloudCall.deleteListeners (valueOf c4av.LoadBalancerName) [443]
        ∈ (RenderAWS c4env (some c4av) emptyCLB c4changes).calls := by
  refine ⟨⟨by decide, by decide, by decide, by decide, by decide⟩, ?_⟩
  exact ((renderAWS_listener_update c4env c4av emptyCLB c4changes "x").2.2 (by decide)
    (by decide) (by decide) (by decide) c4desc (by decide)).1
